import Mathlib

/-!
Verification of the RaceTrack Studio core (Track Geometry Reconstruction and
Optimal Racing Line Engine) against its natural-language specification.

The Python source is shallowly embedded: numeric values are idealized as real
numbers, dictionaries become structures (with `Option` fields for keys read via
`dict.get` with a default), numpy arrays become lists, and the external SciPy
operations (`splprep`, `splev`, `gaussian_filter1d`) and the elevation
provider are abstract function parameters, since they are not code of this
repository.  Code paths that raise in Python are modelled with `Option` /
`Except` results.
-/

open scoped Classical

noncomputable section

namespace RaceTrack

/-! ## Vehicle and weather configuration
From `src/Code/Core/OptimalLine/optimal_line_generator.py`.
Fields read with `self.vehicle.get(key, default)` are `Option`s; fields whose
presence is checked by `_validate_inputs` are plain reals. -/

structure VehicleConfig where
  tire_friction_dry : ℝ
  tire_friction_wet : Option ℝ
  tire_friction_intermediate : Option ℝ
  optimal_tire_temp : Option ℝ
  top_speed_ms : ℝ
  max_lateral_g : ℝ
  max_brake_g : ℝ
  max_accel_g : ℝ
  corner_speed_factor : ℝ

structure WeatherConfig where
  track_temp : ℝ
  air_temp : ℝ
  humidity : ℝ
  wind_speed : ℝ
  wind_direction : ℝ
  rainfall : Option ℝ

/-- `_get_default_vehicle_config` (Toyota GR86 Cup Car); the unused
`mass_kg` / `power_hp` presentation fields are omitted. -/
def defaultVehicle : VehicleConfig :=
  { tire_friction_dry := 1.40
    tire_friction_wet := some 0.70
    tire_friction_intermediate := some 1.00
    optimal_tire_temp := some 85
    top_speed_ms := 67.0
    max_lateral_g := 1.35
    max_brake_g := 1.50
    max_accel_g := 0.85
    corner_speed_factor := 0.92 }

/-- `_get_default_weather_config` (ideal dry conditions). -/
def defaultWeather : WeatherConfig :=
  { track_temp := 85.0
    air_temp := 25.0
    humidity := 50
    wind_speed := 0.0
    wind_direction := 0
    rainfall := some 0.0 }

/-- `_calculate_tire_grip`: weather-adjusted tire grip coefficient. -/
def calculate_tire_grip (v : VehicleConfig) (w : WeatherConfig) : ℝ :=
  let base_friction := v.tire_friction_dry
  let optimal_temp := v.optimal_tire_temp.getD 85
  let temp_diff := |w.track_temp - optimal_temp|
  let temp_factor₀ := 1.0 - temp_diff / 100.0 * 0.3
  let temp_factor := max 0.4 (min 1.0 temp_factor₀)
  let rainfall := w.rainfall.getD 0
  let effective_friction :=
    if rainfall > 10.0 then v.tire_friction_wet.getD 0.70
    else if rainfall > 2.0 then v.tire_friction_intermediate.getD 1.00
    else if rainfall > 0.1 then base_friction * 0.85
    else base_friction
  effective_friction * temp_factor

/-! Spec-side restatement of the grip model (§4.5 step 1 of the spec), used to
compare the code's `_calculate_tire_grip` with the specified formula
`effectiveGrip = selectedFriction × tempFactor`. -/

/-- Modelled from the spec: `tempFactor = clamp(1 − |trackTemp − optimalTemp| /
100 × 0.3, 0.4, 1.0)`. -/
def tempFactorSpec (v : VehicleConfig) (w : WeatherConfig) : ℝ :=
  max 0.4 (min 1.0 (1.0 - |w.track_temp - v.optimal_tire_temp.getD 85| / 100.0 * 0.3))

/-- Modelled from the spec: rainfall selects a friction value:
`>10 mm/hr → wet`, `>2 → intermediate`, `>0.1 → dry×0.85` (damp), else dry. -/
def selectedFrictionSpec (v : VehicleConfig) (w : WeatherConfig) : ℝ :=
  if w.rainfall.getD 0 > 10.0 then v.tire_friction_wet.getD 0.70
  else if w.rainfall.getD 0 > 2.0 then v.tire_friction_intermediate.getD 1.00
  else if w.rainfall.getD 0 > 0.1 then v.tire_friction_dry * 0.85
  else v.tire_friction_dry

/-- Weather record with the given track temperature and rainfall and the
default remaining fields (they do not influence the grip computation). -/
def mkWeather (t r : ℝ) : WeatherConfig :=
  { track_temp := t
    air_temp := 25.0
    humidity := 50
    wind_speed := 0.0
    wind_direction := 0
    rainfall := some r }

/-- Scenario D vehicle: dry friction 1.40, wet friction 0.70 (the default
vehicle already has exactly these values). -/
def scenarioDVehicle : VehicleConfig := defaultVehicle

/-- Claim C3: for every vehicle and weather configuration the effective grip
computed by `_calculate_tire_grip` equals `selectedFriction × tempFactor` with
`tempFactor = clamp(1 − |trackTemp − optimalTemp|/100 × 0.3, 0.4, 1.0)` and the
rainfall bands `>10 → wet`, `>2 → intermediate`, `>0.1 → dry×0.85`, else dry;
in particular with rainfall 15 mm/hr, dry friction 1.40, wet friction 0.70 and
track temperature at the optimum the effective grip is 0.70. -/
theorem grip_equals_selected_friction_times_temp_factor :
    (∀ (v : VehicleConfig) (w : WeatherConfig),
      calculate_tire_grip v w = selectedFrictionSpec v w * tempFactorSpec v w) ∧
    calculate_tire_grip scenarioDVehicle (mkWeather 85 15) = 0.70 := by
  constructor
  · intro v w
    rfl
  · show calculate_tire_grip defaultVehicle (mkWeather 85 15) = 0.70
    unfold calculate_tire_grip defaultVehicle mkWeather
    norm_num

/-- Evaluation of the grip model at the default vehicle: the rainfall band
selects the friction and the temperature factor multiplies it. -/
lemma grip_default_eval (t r : ℝ) :
    calculate_tire_grip defaultVehicle (mkWeather t r) =
      (if r > 10.0 then (0.70:ℝ) else if r > 2.0 then 1.00 else if r > 0.1 then 1.40 * 0.85
        else 1.40) * max 0.4 (min 1.0 (1.0 - |t - 85| / 100.0 * 0.3)) := rfl

/-- The clamped temperature factor is at least 0.4, hence positive. -/
lemma temp_factor_pos (t : ℝ) :
    (0:ℝ) < max 0.4 (min 1.0 (1.0 - |t - 85| / 100.0 * 0.3)) := by
  have h : (0.4:ℝ) ≤ max 0.4 (min 1.0 (1.0 - |t - 85| / 100.0 * 0.3)) := le_max_left _ _
  linarith

/-- Claim C4: with the default vehicle configuration and a fixed track
temperature, the effective grip strictly decreases across the rainfall bands
dry → damp → intermediate → wet; and for any fixed rainfall, moving the track
temperature farther from the optimal temperature never increases the grip. -/
theorem grip_monotonicity :
    (∀ t r₁ r₂ r₃ r₄ : ℝ, r₁ ≤ 0.1 → 0.1 < r₂ → r₂ ≤ 2 → 2 < r₃ → r₃ ≤ 10 → 10 < r₄ →
      calculate_tire_grip defaultVehicle (mkWeather t r₂) <
          calculate_tire_grip defaultVehicle (mkWeather t r₁) ∧
      calculate_tire_grip defaultVehicle (mkWeather t r₃) <
          calculate_tire_grip defaultVehicle (mkWeather t r₂) ∧
      calculate_tire_grip defaultVehicle (mkWeather t r₄) <
          calculate_tire_grip defaultVehicle (mkWeather t r₃)) ∧
    (∀ r t₁ t₂ : ℝ, |t₁ - 85| ≤ |t₂ - 85| →
      calculate_tire_grip defaultVehicle (mkWeather t₂ r) ≤
        calculate_tire_grip defaultVehicle (mkWeather t₁ r)) := by
  constructor
  · intro t r₁ r₂ r₃ r₄ h₁ h₂ h₂' h₃ h₃' h₄
    simp only [grip_default_eval]
    refine ⟨?_, ?_, ?_⟩
    · rw [if_neg (by norm_num; linarith), if_neg (by norm_num; linarith), if_pos (by linarith),
        if_neg (by norm_num; linarith), if_neg (by norm_num; linarith),
        if_neg (by norm_num; linarith)]
      nlinarith [temp_factor_pos t]
    · rw [if_neg (by norm_num; linarith), if_pos (by linarith),
        if_neg (by norm_num; linarith), if_neg (by norm_num; linarith), if_pos (by linarith)]
      nlinarith [temp_factor_pos t]
    · rw [if_pos (by linarith), if_neg (by norm_num; linarith), if_pos (by linarith)]
      nlinarith [temp_factor_pos t]
  · intro r t₁ t₂ hd
    simp only [grip_default_eval]
    have hfac : max 0.4 (min 1.0 (1.0 - |t₂ - 85| / 100.0 * 0.3)) ≤
        max 0.4 (min 1.0 (1.0 - |t₁ - 85| / 100.0 * 0.3)) := by
      apply max_le_max le_rfl
      apply min_le_min le_rfl
      nlinarith
    have hF : (0:ℝ) ≤
        (if r > 10.0 then (0.70:ℝ) else if r > 2.0 then 1.00 else if r > 0.1 then 1.40 * 0.85
          else 1.40) := by
      split_ifs <;> norm_num
    exact mul_le_mul_of_nonneg_left hfac hF

/-- Witness for `grip_monotonicity` at concrete rainfall values 0, 1, 5, 15 and
track temperatures 85 and 100. -/
theorem grip_monotonicity_witness :
    ((0:ℝ) ≤ 0.1 ∧ (0.1:ℝ) < 1 ∧ (1:ℝ) ≤ 2 ∧ (2:ℝ) < 5 ∧ (5:ℝ) ≤ 10 ∧ (10:ℝ) < 15 ∧
      calculate_tire_grip defaultVehicle (mkWeather 85 1) <
        calculate_tire_grip defaultVehicle (mkWeather 85 0) ∧
      calculate_tire_grip defaultVehicle (mkWeather 85 5) <
        calculate_tire_grip defaultVehicle (mkWeather 85 1) ∧
      calculate_tire_grip defaultVehicle (mkWeather 85 15) <
        calculate_tire_grip defaultVehicle (mkWeather 85 5)) ∧
    (|(85:ℝ) - 85| ≤ |(100:ℝ) - 85| ∧
      calculate_tire_grip defaultVehicle (mkWeather 100 0) ≤
        calculate_tire_grip defaultVehicle (mkWeather 85 0)) := by
  have h1 := grip_monotonicity.1 85 0 1 5 15 (by norm_num) (by norm_num) (by norm_num)
    (by norm_num) (by norm_num) (by norm_num)
  have h2 := grip_monotonicity.2 0 85 100 (by norm_num)
  exact ⟨⟨by norm_num, by norm_num, by norm_num, by norm_num, by norm_num, by norm_num,
    h1.1, h1.2.1, h1.2.2⟩, ⟨by norm_num, h2⟩⟩

/-! ## Optimal line generator (`generate_optimal_line`)

The SciPy curve-fitting and filtering routines are external library calls, so
they are abstracted as a parameter record `SciOps`; everything else follows
`optimal_line_generator.py` lines 134–290.  numpy arrays of equal length
indexed in lock-step become lists combined with `zipWith`. -/

/-- The gravitational constant `g = 9.81` of `generate_optimal_line` step 6. -/
def gravity : ℝ := 9.81

def zipWith3 (f : α → β → γ → δ) : List α → List β → List γ → List δ
  | a :: as, b :: bs, c :: cs => f a b c :: zipWith3 f as bs cs
  | _, _, _ => []

def zipWith4 (f : α → β → γ → δ → ζ) : List α → List β → List γ → List δ → List ζ
  | a :: as, b :: bs, c :: cs, d :: ds => f a b c d :: zipWith4 f as bs cs ds
  | _, _, _, _ => []

/-- Step 1 of `generate_optimal_line`: walk the tail of the centerline keeping
a point only if it is at least `min_spacing = 0.1` m from the last kept point
(`px`, `py`). -/
def dedupAux (px py : ℝ) : List (ℝ × ℝ) → List (ℝ × ℝ)
  | [] => []
  | (x, y) :: rest =>
      if Real.sqrt ((x - px) ^ 2 + (y - py) ^ 2) ≥ 0.1 then
        (x, y) :: dedupAux x y rest
      else
        dedupAux px py rest

/-- Step 1 of `generate_optimal_line`: the first centerline point is always
kept (`cleaned_x = [self.center_x[0]]`); Python would raise on an empty
centerline, which cannot occur because the constructor already indexes it. -/
def dedup : List (ℝ × ℝ) → List (ℝ × ℝ)
  | [] => []
  | (x, y) :: rest => (x, y) :: dedupAux x y rest

def distAux (px py acc : ℝ) : List (ℝ × ℝ) → List ℝ
  | [] => []
  | (x, y) :: rest =>
      let acc' := acc + Real.sqrt ((x - px) ^ 2 + (y - py) ^ 2)
      acc' :: distAux x y acc' rest

/-- The cumulative distance array of `generate_optimal_line` step 2:
`distance[0] = 0`, `distance[i] = distance[i-1] + ds`. -/
def distanceList (xs ys : List ℝ) : List ℝ :=
  match xs.zip ys with
  | [] => []
  | (x₀, y₀) :: rest => 0 :: distAux x₀ y₀ 0 rest

/-- Forward pass over `(lateral speed limit, cumulative distance)` pairs with
previous speed `pv` at previous distance `pd`:
`speeds[i] = min(max_speed_lateral[i], sqrt(speeds[i-1]² + 2·maxAccelG·g·ds))`. -/
def forwardAux (a pv pd : ℝ) : List (ℝ × ℝ) → List (ℝ × ℝ)
  | [] => []
  | (l, d) :: rest =>
      let v := min l (Real.sqrt (pv ^ 2 + 2 * a * gravity * (d - pd)))
      (v, d) :: forwardAux a v d rest

/-- Forward (acceleration-limited) pass: `speeds[0] = max_speed_lateral[0]`. -/
def forwardPass (a : ℝ) : List (ℝ × ℝ) → List (ℝ × ℝ)
  | [] => []
  | (l₀, d₀) :: rest => (l₀, d₀) :: forwardAux a l₀ d₀ rest

/-- Backward (braking-limited) pass, iterating from the last point to the
first: `speeds[i] = min(speeds[i], sqrt(speeds[i+1]² + 2·maxBrakeG·g·ds))`,
where `speeds[i+1]` is the already-updated value. -/
def backwardPass (b : ℝ) : List (ℝ × ℝ) → List (ℝ × ℝ)
  | [] => []
  | (v, d) :: rest =>
      match backwardPass b rest with
      | [] => [(v, d)]
      | (v₂, d₂) :: tl =>
          (min v (Real.sqrt (v₂ ^ 2 + 2 * b * gravity * (d₂ - d))), d) :: (v₂, d₂) :: tl

/-- Step 7 of `generate_optimal_line`: lap time as the sum of
`ds / max(v_avg, 1.0)` over adjacent `(speed, distance)` pairs. -/
def lapTimeOf : List (ℝ × ℝ) → ℝ
  | (v, d) :: (v', d') :: rest => (d' - d) / max ((v + v') / 2) 1 + lapTimeOf ((v', d') :: rest)
  | _ => 0

/-- Step 6 of `generate_optimal_line`: `v = min(sqrt(grip·g·r·cornerFactor),
topSpeed)` with `r = 1/κ` (the curvature `κ` is already floored at `1e-6`). -/
def maxSpeedLateral (grip csf top k : ℝ) : ℝ :=
  min (Real.sqrt (grip * gravity * (1 / k) * csf)) top

/-- The external SciPy operations used by `generate_optimal_line`.  `splprep`
takes the x list, the y list and the smoothing factor `s` (the `per=True, k=3`
arguments are fixed in the source) and can fail with an exception `E`;
`splev c der` evaluates curve `c` and its `der`-th derivative on the fixed
parameter grid `np.linspace(0, 1, n_points, endpoint=False)`, returning the
x and y value lists; `gaussian σ` is `gaussian_filter1d` with that sigma. -/
structure SciOps (Curve E : Type) where
  splprep : List ℝ → List ℝ → ℝ → Except E Curve
  splev : Curve → ℕ → List ℝ × List ℝ
  gaussian : ℝ → List ℝ → List ℝ

/-- Failures of `generate_optimal_line`: the "too few unique points"
`ValueError` (the spec's `GeometryError`), or a propagated curve-fit
exception. -/
inductive GenError (E : Type)
  | insufficientPoints (n : ℕ)
  | fitError (e : E)

/-- The output of `generate_optimal_line`: the columns of the result
DataFrame.  `grip_coefficient` and `lap_time` are constant across rows in the
source and are therefore held once. -/
structure OptimalLine where
  x : List ℝ
  y : List ℝ
  distance : List ℝ
  speed : List ℝ
  curvature : List ℝ
  grip_coefficient : ℝ
  lap_time : ℝ

/-- Steps 6–8 of `generate_optimal_line`: the lateral speed limit followed by
the forward (acceleration-limited) and backward (braking-limited) passes,
given the racing-line curvature and the cumulative distance column. -/
def speedSection (grip : ℝ) (veh : VehicleConfig) (curvature_race distance : List ℝ) :
    List (ℝ × ℝ) :=
  backwardPass veh.max_brake_g (forwardPass veh.max_accel_g
    ((curvature_race.map
      (maxSpeedLateral grip veh.corner_speed_factor veh.top_speed_ms)).zip distance))

/-- Steps 2–7 of `generate_optimal_line`, applied to a successfully fitted
centerline curve `tck`. -/
def olBuild (ops : SciOps Curve E) (tck : Curve) (track_width : ℝ)
    (veh : VehicleConfig) (wea : WeatherConfig) : Except (GenError E) OptimalLine :=
  let effective_grip := calculate_tire_grip veh wea
  let center := ops.splev tck 0
  let d1 := ops.splev tck 1
  let tangent_len := List.zipWith (fun a b => Real.sqrt (a ^ 2 + b ^ 2)) d1.1 d1.2
  let tangent_x := List.zipWith (· / ·) d1.1 tangent_len
  let tangent_y := List.zipWith (· / ·) d1.2 tangent_len
  let normal_x := tangent_y.map fun t => -t
  let _normal_y := tangent_x
  let distance := distanceList center.1 center.2
  let d2 := ops.splev tck 2
  let curvature_center := ops.gaussian 15
    ((zipWith4 (fun dx dy d2x d2y => |dx * d2y - dy * d2x|) d1.1 d1.2 d2.1 d2.2).zipWith
      (fun n t => n / t ^ 3) tangent_len)
  let max_offset := track_width / 2 * 0.9
  let grip_factor := effective_grip / veh.tire_friction_dry
  let lateral_offsets := ops.gaussian 20
    (curvature_center.map fun k => -Real.sign k * min (|k| * 800 * grip_factor) max_offset)
  let race_x := zipWith3 (fun c o n => c + o * n) center.1 lateral_offsets normal_x
  let race_y := zipWith3 (fun c o n => c + o * n) center.2 lateral_offsets _normal_y
  match ops.splprep race_x race_y 10 with
  | .error e => .error (.fitError e)
  | .ok race_tck =>
      let rd1 := ops.splev race_tck 1
      let rd2 := ops.splev race_tck 2
      let race_tangent_len := List.zipWith (fun a b => Real.sqrt (a ^ 2 + b ^ 2)) rd1.1 rd1.2
      let curvature_race := (ops.gaussian 10
        ((zipWith4 (fun dx dy d2x d2y => |dx * d2y - dy * d2x|) rd1.1 rd1.2 rd2.1 rd2.2).zipWith
          (fun n t => n / t ^ 3) race_tangent_len)).map fun k => max k 1e-6
      let speed_pairs := speedSection effective_grip veh curvature_race distance
      .ok { x := race_x
            y := race_y
            distance := distance
            speed := speed_pairs.map (·.1)
            curvature := curvature_race
            grip_coefficient := effective_grip
            lap_time := lapTimeOf speed_pairs }

/-- `generate_optimal_line` of `OptimalLineGenerator`: deduplicate the
centerline, require at least 4 unique points, fit with `s=0` retrying once
with `s=10` on failure, then build the racing line and its speed profile.
The effective grip is the one computed by the constructor from the vehicle
and weather configurations. -/
def generate_optimal_line (ops : SciOps Curve E) (center_x center_y : List ℝ)
    (track_width : ℝ) (veh : VehicleConfig) (wea : WeatherConfig) :
    Except (GenError E) OptimalLine :=
  let cleaned := dedup (center_x.zip center_y)
  if cleaned.length < 4 then .error (.insufficientPoints cleaned.length)
  else
    match ops.splprep (cleaned.map (·.1)) (cleaned.map (·.2)) 0 with
    | .ok tck => olBuild ops tck track_width veh wea
    | .error _ =>
        match ops.splprep (cleaned.map (·.1)) (cleaned.map (·.2)) 10 with
        | .ok tck => olBuild ops tck track_width veh wea
        | .error e => .error (.fitError e)

/-! ### Structural lemmas about the two-pass speed solver -/

lemma gravity_nonneg : (0:ℝ) ≤ gravity := by norm_num [gravity]

lemma forwardAux_map_snd (a : ℝ) (l : List (ℝ × ℝ)) :
    ∀ pv pd, (forwardAux a pv pd l).map Prod.snd = l.map Prod.snd := by
  induction l with
  | nil => intro pv pd; rfl
  | cons p rest ih =>
      intro pv pd
      obtain ⟨x, d⟩ := p
      simp [forwardAux, ih]

lemma forwardPass_map_snd (a : ℝ) (l : List (ℝ × ℝ)) :
    (forwardPass a l).map Prod.snd = l.map Prod.snd := by
  cases l with
  | nil => rfl
  | cons p rest =>
      obtain ⟨x, d⟩ := p
      simp [forwardPass, forwardAux_map_snd]

lemma backwardPass_map_snd (b : ℝ) (l : List (ℝ × ℝ)) :
    (backwardPass b l).map Prod.snd = l.map Prod.snd := by
  induction l with
  | nil => rfl
  | cons p rest ih =>
      obtain ⟨v, d⟩ := p
      cases hbr : backwardPass b rest with
      | nil =>
          have : rest.map Prod.snd = [] := by rw [← ih, hbr]; rfl
          simp [backwardPass, hbr, List.map_eq_nil_iff.mp this]
      | cons q tl =>
          obtain ⟨v₂, d₂⟩ := q
          simpa [backwardPass, hbr] using ih

/-- Shape of the backward pass on a nonempty list: the head keeps its distance
and its speed can only decrease. -/
lemma backwardPass_cons_shape (b v d : ℝ) (rest : List (ℝ × ℝ)) :
    ∃ u tl, backwardPass b ((v, d) :: rest) = (u, d) :: tl ∧ u ≤ v := by
  cases hbr : backwardPass b rest with
  | nil => exact ⟨v, [], by simp [backwardPass, hbr], le_rfl⟩
  | cons q tl =>
      obtain ⟨v₂, d₂⟩ := q
      exact ⟨min v (Real.sqrt (v₂ ^ 2 + 2 * b * gravity * (d₂ - d))), (v₂, d₂) :: tl,
        by simp [backwardPass, hbr], min_le_left _ _⟩

/-- The forward pass satisfies its own acceleration constraint by
construction. -/
lemma forwardAux_chain (a : ℝ) (l : List (ℝ × ℝ)) :
    ∀ pv pd, List.Chain'
      (fun p q : ℝ × ℝ => q.1 ≤ Real.sqrt (p.1 ^ 2 + 2 * a * gravity * (q.2 - p.2)))
      ((pv, pd) :: forwardAux a pv pd l) := by
  induction l with
  | nil => intro pv pd; simp [forwardAux]
  | cons p rest ih =>
      intro pv pd
      obtain ⟨x, d⟩ := p
      rw [forwardAux]
      refine List.chain'_cons.mpr ⟨min_le_right _ _, ih _ _⟩

lemma forwardPass_chain (a : ℝ) (l : List (ℝ × ℝ)) :
    List.Chain'
      (fun p q : ℝ × ℝ => q.1 ≤ Real.sqrt (p.1 ^ 2 + 2 * a * gravity * (q.2 - p.2)))
      (forwardPass a l) := by
  cases l with
  | nil => simp [forwardPass]
  | cons p rest =>
      obtain ⟨x, d⟩ := p
      exact forwardAux_chain a rest x d

/-- Claim C1 core lemma: after the backward pass, every adjacent pair satisfies
both the forward (acceleration) and backward (braking) constraints, provided
the input list already satisfies the forward constraint and has non-decreasing
distances. -/
lemma backwardPass_feasible (a b : ℝ) (ha : 0 ≤ a) (hb : 0 ≤ b) (l : List (ℝ × ℝ))
    (hf : List.Chain'
      (fun p q : ℝ × ℝ => q.1 ≤ Real.sqrt (p.1 ^ 2 + 2 * a * gravity * (q.2 - p.2))) l)
    (hd : List.Chain' (fun p q : ℝ × ℝ => p.2 ≤ q.2) l) :
    List.Chain'
      (fun p q : ℝ × ℝ =>
        q.1 ≤ Real.sqrt (p.1 ^ 2 + 2 * a * gravity * (q.2 - p.2)) ∧
        p.1 ≤ Real.sqrt (q.1 ^ 2 + 2 * b * gravity * (q.2 - p.2)))
      (backwardPass b l) := by
  induction l with
  | nil => simp [backwardPass]
  | cons p rest ih =>
      obtain ⟨v, d⟩ := p
      cases rest with
      | nil => simp [backwardPass]
      | cons q tl =>
          obtain ⟨vr, dr⟩ := q
          obtain ⟨hf1, hf2⟩ := List.chain'_cons.mp hf
          obtain ⟨hd1, hd2⟩ := List.chain'_cons.mp hd
          have ihr := ih hf2 hd2
          obtain ⟨u, tl', heq, hule⟩ := backwardPass_cons_shape b vr dr tl
          have hstep : backwardPass b ((v, d) :: (vr, dr) :: tl) =
              (min v (Real.sqrt (u ^ 2 + 2 * b * gravity * (dr - d))), d) :: (u, dr) :: tl' := by
            rw [backwardPass, heq]
          rw [hstep]
          rw [heq] at ihr
          set X := Real.sqrt (u ^ 2 + 2 * b * gravity * (dr - d)) with hX
          have hc_nonneg : (0:ℝ) ≤ 2 * b * gravity * (dr - d) := by
            have := gravity_nonneg
            have hdd : (0:ℝ) ≤ dr - d := by linarith
            positivity

          have ha_nonneg : (0:ℝ) ≤ 2 * a * gravity * (dr - d) := by
            have := gravity_nonneg
            have hdd : (0:ℝ) ≤ dr - d := by linarith
            positivity
          have huX : u ≤ X := by
            calc u ≤ |u| := le_abs_self u
            _ = Real.sqrt (u ^ 2) := (Real.sqrt_sq_eq_abs u).symm
            _ ≤ X := Real.sqrt_le_sqrt (by linarith)
          refine List.chain'_cons.mpr ⟨⟨?_, min_le_right _ _⟩, ihr⟩
          rcases le_total v X with hvX | hXv
          · rw [min_eq_left hvX]
            calc u ≤ vr := hule
            _ ≤ Real.sqrt (v ^ 2 + 2 * a * gravity * (dr - d)) := hf1
          · rw [min_eq_right hXv]
            have hX0 : (0:ℝ) ≤ X := Real.sqrt_nonneg _
            calc u ≤ X := huX
            _ = Real.sqrt (X ^ 2) := (Real.sqrt_sq hX0).symm
            _ ≤ Real.sqrt (X ^ 2 + 2 * a * gravity * (dr - d)) :=
                Real.sqrt_le_sqrt (by linarith)

/-- The cumulative distance list is non-decreasing (each increment is a
square root, hence non-negative). -/
lemma distAux_chain (l : List (ℝ × ℝ)) :
    ∀ px py acc, List.Chain' (· ≤ ·) (acc :: distAux px py acc l) := by
  induction l with
  | nil => intro px py acc; simp [distAux]
  | cons p rest ih =>
      intro px py acc
      obtain ⟨x, y⟩ := p
      rw [distAux]
      refine List.chain'_cons.mpr ⟨?_, ih _ _ _⟩
      have := Real.sqrt_nonneg ((x - px) ^ 2 + (y - py) ^ 2)
      linarith

lemma distanceList_chain (xs ys : List ℝ) :
    List.Chain' (· ≤ ·) (distanceList xs ys) := by
  rw [distanceList]
  cases h : xs.zip ys with
  | nil => simp
  | cons p rest =>
      obtain ⟨x₀, y₀⟩ := p
      exact distAux_chain rest x₀ y₀ 0

lemma map_snd_zip_take (l : List α) (d : List β) :
    (l.zip d).map Prod.snd = d.take l.length := by
  induction l generalizing d with
  | nil => simp
  | cons p rest ih =>
      cases d with
      | nil => simp
      | cons x d' => simpa using ih d'

/-- Re-zipping the speeds with the distance column recovers the internal
(speed, distance) pair list. -/
lemma zip_map_fst_self (l : List (α × β)) (d : List β)
    (h : l.map Prod.snd = d.take l.length) : (l.map Prod.fst).zip d = l := by
  induction l generalizing d with
  | nil => simp
  | cons p rest ih =>
      obtain ⟨a, b⟩ := p
      cases d with
      | nil => simp at h
      | cons x d' =>
          simp only [List.map_cons, List.length_cons, List.take_succ_cons, List.cons.injEq] at h
          simp only [List.map_cons, List.zip_cons_cons, List.cons.injEq]
          exact ⟨by rw [h.1], ih d' h.2⟩

/-- Inversion of a successful `olBuild`: the output's speed column is the
two-pass `speedSection` solve over some racing-line curvature list, zipped
with the output's distance column (the cumulative distances of the fitted
centerline). -/
lemma olBuild_ok_inv {Curve E : Type} {ops : SciOps Curve E} {tck : Curve} {tw : ℝ}
    {veh : VehicleConfig} {wea : WeatherConfig} {out : OptimalLine}
    (h : olBuild ops tck tw veh wea = .ok out) :
    ∃ curv : List ℝ,
      out.distance = distanceList (ops.splev tck 0).1 (ops.splev tck 0).2 ∧
      out.speed = (speedSection (calculate_tire_grip veh wea) veh curv out.distance).map
        Prod.fst := by
  rw [olBuild] at h
  split at h
  · exact absurd h (by simp)
  · rename_i race_tck heq
    injection h with h'
    subst h'
    exact ⟨_, rfl, rfl⟩

/-- A successful `generate_optimal_line` went through `olBuild` on one of the
two fit attempts. -/
lemma generate_ok_inv {Curve E : Type} {ops : SciOps Curve E} {cx cy : List ℝ} {tw : ℝ}
    {veh : VehicleConfig} {wea : WeatherConfig} {out : OptimalLine}
    (hres : generate_optimal_line ops cx cy tw veh wea = .ok out) :
    ∃ tck, olBuild ops tck tw veh wea = .ok out := by
  rw [generate_optimal_line] at hres
  split at hres
  · exact absurd hres (by simp)
  · split at hres
    · exact ⟨_, hres⟩
    · split at hres
      · exact ⟨_, hres⟩
      · exact absurd hres (by simp)

/-- Claim C1: after the two-pass speed solve in `generate_optimal_line`, every
adjacent pair of output points simultaneously satisfies the forward
(acceleration-limited) constraint
`speed[i+1] ≤ sqrt(speed[i]² + 2·maxAccelG·g·Δd)` and the backward
(braking-limited) constraint `speed[i] ≤ sqrt(speed[i+1]² + 2·maxBrakeG·g·Δd)`
with `Δd = distance[i+1] − distance[i]`. -/
theorem speed_profile_feasible {Curve E : Type} (ops : SciOps Curve E)
    (center_x center_y : List ℝ) (track_width : ℝ) (veh : VehicleConfig)
    (wea : WeatherConfig) (out : OptimalLine)
    (hres : generate_optimal_line ops center_x center_y track_width veh wea = .ok out)
    (ha : 0 ≤ veh.max_accel_g) (hb : 0 ≤ veh.max_brake_g) :
    List.Chain'
      (fun p q : ℝ × ℝ =>
        q.1 ≤ Real.sqrt (p.1 ^ 2 + 2 * veh.max_accel_g * gravity * (q.2 - p.2)) ∧
        p.1 ≤ Real.sqrt (q.1 ^ 2 + 2 * veh.max_brake_g * gravity * (q.2 - p.2)))
      (out.speed.zip out.distance) := by
  obtain ⟨tck, hbuild⟩ := generate_ok_inv hres
  obtain ⟨curv, hdist, hspeed⟩ := olBuild_ok_inv hbuild
  rw [speedSection] at hspeed
  set lat := curv.map (maxSpeedLateral (calculate_tire_grip veh wea)
    veh.corner_speed_factor veh.top_speed_ms) with hlat
  set pairs := backwardPass veh.max_brake_g (forwardPass veh.max_accel_g
    (lat.zip out.distance)) with hpairs
  have hsnd : pairs.map Prod.snd = out.distance.take pairs.length := by
    have h1 : pairs.map Prod.snd = (lat.zip out.distance).map Prod.snd := by
      rw [hpairs, backwardPass_map_snd, forwardPass_map_snd]
    have hlen : pairs.length = (lat.zip out.distance).length := by
      have := congrArg List.length h1
      simpa using this
    rw [h1, hlen, map_snd_zip_take, List.length_zip]
    rcases Nat.le_total lat.length out.distance.length with hle | hle
    · rw [Nat.min_eq_left hle]
    · rw [Nat.min_eq_right hle, List.take_of_length_le hle, List.take_length]
  have hzip : out.speed.zip out.distance = pairs := by
    rw [hspeed]
    exact zip_map_fst_self pairs out.distance hsnd
  rw [hzip, hpairs]
  apply backwardPass_feasible _ _ ha hb
  · exact forwardPass_chain _ _
  · have hdc : List.Chain' (· ≤ ·) out.distance := by
      rw [hdist]; exact distanceList_chain _ _
    have h2 : List.Chain' (· ≤ ·)
        ((forwardPass veh.max_accel_g (lat.zip out.distance)).map Prod.snd) := by
      rw [forwardPass_map_snd, map_snd_zip_take]
      exact hdc.take _
    exact (List.chain'_map Prod.snd).mp h2

/-! ### The top-speed cap (claim C10) -/

lemma forwardAux_fst_le (a M : ℝ) (l : List (ℝ × ℝ)) (hl : ∀ x ∈ l, x.1 ≤ M) :
    ∀ pv pd, ∀ y ∈ forwardAux a pv pd l, y.1 ≤ M := by
  induction l with
  | nil => intro pv pd y hy; simp [forwardAux] at hy
  | cons p rest ih =>
      intro pv pd y hy
      obtain ⟨x, d⟩ := p
      rw [forwardAux] at hy
      rcases List.mem_cons.mp hy with rfl | hy'
      · exact le_trans (min_le_left _ _) (hl (x, d) (List.mem_cons_self _ _))
      · exact ih (fun z hz => hl z (List.mem_cons_of_mem _ hz)) _ _ y hy'

lemma forwardPass_fst_le (a M : ℝ) (l : List (ℝ × ℝ)) (hl : ∀ x ∈ l, x.1 ≤ M) :
    ∀ y ∈ forwardPass a l, y.1 ≤ M := by
  cases l with
  | nil => intro y hy; simp [forwardPass] at hy
  | cons p rest =>
      intro y hy
      obtain ⟨x, d⟩ := p
      rw [forwardPass] at hy
      rcases List.mem_cons.mp hy with rfl | hy'
      · exact hl (x, d) (List.mem_cons_self _ _)
      · exact forwardAux_fst_le a M rest
          (fun z hz => hl z (List.mem_cons_of_mem _ hz)) _ _ y hy'

lemma backwardPass_fst_le (b M : ℝ) (l : List (ℝ × ℝ)) (hl : ∀ x ∈ l, x.1 ≤ M) :
    ∀ y ∈ backwardPass b l, y.1 ≤ M := by
  induction l with
  | nil => intro y hy; simp [backwardPass] at hy
  | cons p rest ih =>
      intro y hy
      obtain ⟨v, d⟩ := p
      have hv : v ≤ M := hl (v, d) (List.mem_cons_self _ _)
      have hrest : ∀ x ∈ rest, x.1 ≤ M := fun z hz => hl z (List.mem_cons_of_mem _ hz)
      cases hbr : backwardPass b rest with
      | nil =>
          rw [backwardPass, hbr] at hy
          rcases List.mem_singleton.mp hy with rfl
          exact hv
      | cons q tl =>
          obtain ⟨v₂, d₂⟩ := q
          rw [backwardPass, hbr] at hy
          rcases List.mem_cons.mp hy with rfl | hy'
          · exact le_trans (min_le_left _ _) hv
          · exact ih hrest y (hbr ▸ hy')

/-- Claim C10: every speed in the output of `generate_optimal_line` is at most
the vehicle's `top_speed_ms`: the lateral limit is capped at top speed, the
forward pass takes a minimum with it, and the backward pass only lowers
speeds. -/
theorem speeds_below_top_speed {Curve E : Type} (ops : SciOps Curve E)
    (center_x center_y : List ℝ) (track_width : ℝ) (veh : VehicleConfig)
    (wea : WeatherConfig) (out : OptimalLine)
    (hres : generate_optimal_line ops center_x center_y track_width veh wea = .ok out) :
    ∀ v ∈ out.speed, v ≤ veh.top_speed_ms := by
  obtain ⟨tck, hbuild⟩ := generate_ok_inv hres
  obtain ⟨curv, hdist, hspeed⟩ := olBuild_ok_inv hbuild
  intro v hv
  rw [hspeed, speedSection] at hv
  simp only [List.mem_map] at hv
  obtain ⟨y, hy, rfl⟩ := hv
  refine backwardPass_fst_le _ _ _ ?_ y hy
  intro x hx
  refine forwardPass_fst_le _ _ _ ?_ x hx
  intro z hz
  obtain ⟨z₁, z₂⟩ := z
  have hz1 := (List.of_mem_zip hz).1
  simp only [List.mem_map] at hz1
  obtain ⟨k, _, hk⟩ := hz1
  rw [← hk]
  exact min_le_right _ _

/-! ### Failure behaviour of `generate_optimal_line` (claim C8) -/

/-- Claim C8: if fewer than 4 distinct centerline points remain after the
0.1 m deduplication, `generate_optimal_line` signals the insufficient-points
error (the spec's `GeometryError`) and returns no partial output; and when the
exact-interpolation fit (`s=0`) fails, it retries exactly once with the
smoothing tolerance `s=10`: a successful retry proceeds to build the line,
and a failing retry propagates that error. -/
theorem geometry_error_and_fit_retry {Curve E : Type} (ops : SciOps Curve E)
    (center_x center_y : List ℝ) (track_width : ℝ) (veh : VehicleConfig)
    (wea : WeatherConfig) :
    ((dedup (center_x.zip center_y)).length < 4 →
      generate_optimal_line ops center_x center_y track_width veh wea =
        .error (.insufficientPoints (dedup (center_x.zip center_y)).length)) ∧
    (¬ (dedup (center_x.zip center_y)).length < 4 →
      ∀ e₁, ops.splprep ((dedup (center_x.zip center_y)).map (·.1))
          ((dedup (center_x.zip center_y)).map (·.2)) 0 = .error e₁ →
        (∀ tck, ops.splprep ((dedup (center_x.zip center_y)).map (·.1))
            ((dedup (center_x.zip center_y)).map (·.2)) 10 = .ok tck →
          generate_optimal_line ops center_x center_y track_width veh wea =
            olBuild ops tck track_width veh wea) ∧
        (∀ e₂, ops.splprep ((dedup (center_x.zip center_y)).map (·.1))
            ((dedup (center_x.zip center_y)).map (·.2)) 10 = .error e₂ →
          generate_optimal_line ops center_x center_y track_width veh wea =
            .error (.fitError e₂))) := by
  constructor
  · intro hlt
    rw [generate_optimal_line, if_pos hlt]
  · intro hge e₁ h₁
    constructor
    · intro tck h₂
      rw [generate_optimal_line, if_neg hge, h₁, h₂]
    · intro e₂ h₂
      rw [generate_optimal_line, if_neg hge, h₁, h₂]

/-! ### Concrete instances for the optimal-line theorems -/

/-- A trivial curve-fitting backend whose fits always succeed and whose curve
evaluations return a single zero point; used to exercise the success path of
`generate_optimal_line` on a concrete input. -/
def opsZero : SciOps Unit Unit :=
  { splprep := fun _ _ _ => .ok ()
    splev := fun _ _ => ([0], [0])
    gaussian := fun _ zs => zs }

/-- A curve-fitting backend whose fits always fail, tagging the error with the
smoothing factor that was attempted. -/
def opsFail : SciOps Unit ℕ :=
  { splprep := fun _ _ s => .error (if s = 0 then 1 else 2)
    splev := fun _ _ => ([], [])
    gaussian := fun _ zs => zs }

/-- The optimal line produced by `generate_optimal_line` under `opsZero` on a
four-point straight centerline with the default vehicle and weather. -/
def lineZero : OptimalLine :=
  { x := [0]
    y := [0]
    distance := [0]
    speed := [67.0]
    curvature := [1e-6]
    grip_coefficient := 1.4
    lap_time := 0 }

lemma dedup_four :
    dedup ((([0, 1, 2, 3] : List ℝ)).zip ([0, 0, 0, 0] : List ℝ)) =
      [(0, 0), (1, 0), (2, 0), (3, 0)] := by
  norm_num [dedup, dedupAux, List.zip]

lemma grip_default_default : calculate_tire_grip defaultVehicle defaultWeather = 1.4 := by
  norm_num [calculate_tire_grip, defaultVehicle, defaultWeather,
    max_eq_right (by norm_num : (0.4:ℝ) ≤ 1.0)]

lemma max_speed_lateral_eval :
    maxSpeedLateral (calculate_tire_grip defaultVehicle defaultWeather)
      defaultVehicle.corner_speed_factor defaultVehicle.top_speed_ms (max 0 1e-6) = 67.0 := by
  have hmax : max (0:ℝ) 1e-6 = 1e-6 := max_eq_right (by norm_num)
  rw [maxSpeedLateral, hmax, grip_default_default,
    show defaultVehicle.corner_speed_factor = 0.92 from rfl,
    show defaultVehicle.top_speed_ms = 67.0 from rfl]
  apply min_eq_right
  rw [show (1.4 : ℝ) * gravity * (1 / 1e-6) * 0.92 = 12635280 by norm_num [gravity]]
  have h : (67.0:ℝ) = Real.sqrt (67.0 ^ 2) := (Real.sqrt_sq (by norm_num)).symm
  rw [h]
  exact Real.sqrt_le_sqrt (by norm_num)

lemma max_speed_lateral_eval' :
    maxSpeedLateral (calculate_tire_grip defaultVehicle defaultWeather)
      defaultVehicle.corner_speed_factor defaultVehicle.top_speed_ms 1e-6 = 67.0 := by
  rw [maxSpeedLateral, grip_default_default,
    show defaultVehicle.corner_speed_factor = 0.92 from rfl,
    show defaultVehicle.top_speed_ms = 67.0 from rfl]
  apply min_eq_right
  rw [show (1.4 : ℝ) * gravity * (1 / 1e-6) * 0.92 = 12635280 by norm_num [gravity]]
  have h : (67.0:ℝ) = Real.sqrt (67.0 ^ 2) := (Real.sqrt_sq (by norm_num)).symm
  rw [h]
  exact Real.sqrt_le_sqrt (by norm_num)

lemma olBuild_opsZero :
    olBuild opsZero () 10 defaultVehicle defaultWeather = .ok lineZero := by
  rw [olBuild]
  simp only [opsZero, Except.ok.injEq, lineZero, OptimalLine.mk.injEq, speedSection]
  have hz4 : zipWith4 (fun dx dy d2x d2y => |dx * d2y - dy * d2x|)
      ([0] : List ℝ) [0] [0] [0] = [0] := by
    norm_num [zipWith4]
  have htl : List.zipWith (fun a b => Real.sqrt (a ^ 2 + b ^ 2))
      ([0] : List ℝ) [0] = [0] := by
    norm_num
  have hdistz : distanceList ([0] : List ℝ) [0] = [0] := by
    norm_num [distanceList, distAux, List.zip]
  have hsup : (0:ℝ) ⊔ 1e-6 = 1e-6 := max_eq_right (by norm_num)
  rw [hz4, htl, hdistz]
  have hz : List.zipWith (fun n t => n / t ^ 3) ([0] : List ℝ) [0] = [0] := by norm_num
  rw [hz]
  simp only [List.map_cons, List.map_nil, hsup]
  rw [max_speed_lateral_eval']
  norm_num [zipWith3, Real.sign_zero, forwardPass, forwardAux, backwardPass,
    lapTimeOf, grip_default_default, List.zip]

lemma generate_opsZero :
    generate_optimal_line opsZero [0, 1, 2, 3] [0, 0, 0, 0] 10 defaultVehicle
      defaultWeather = .ok lineZero := by
  rw [generate_optimal_line, dedup_four]
  norm_num
  exact olBuild_opsZero

/-- Witness for `speed_profile_feasible` on the concrete `opsZero` run. -/
theorem speed_profile_feasible_witness :
    (0:ℝ) ≤ defaultVehicle.max_accel_g ∧ (0:ℝ) ≤ defaultVehicle.max_brake_g ∧
    List.Chain'
      (fun p q : ℝ × ℝ =>
        q.1 ≤ Real.sqrt (p.1 ^ 2 + 2 * defaultVehicle.max_accel_g * gravity * (q.2 - p.2)) ∧
        p.1 ≤ Real.sqrt (q.1 ^ 2 + 2 * defaultVehicle.max_brake_g * gravity * (q.2 - p.2)))
      (lineZero.speed.zip lineZero.distance) :=
  ⟨by norm_num [defaultVehicle], by norm_num [defaultVehicle],
    speed_profile_feasible opsZero [0, 1, 2, 3] [0, 0, 0, 0] 10 defaultVehicle
      defaultWeather lineZero generate_opsZero (by norm_num [defaultVehicle])
      (by norm_num [defaultVehicle])⟩

/-- Witness for `speeds_below_top_speed` on the concrete `opsZero` run. -/
theorem speeds_below_top_speed_witness : (67.0:ℝ) ≤ defaultVehicle.top_speed_ms :=
  speeds_below_top_speed opsZero [0, 1, 2, 3] [0, 0, 0, 0] 10 defaultVehicle
    defaultWeather lineZero generate_opsZero 67.0 (by simp [lineZero])

/-- Witness for `geometry_error_and_fit_retry`: a two-point centerline yields
the insufficient-points error, and a centerline whose fits both fail yields
the propagated retry error. -/
theorem geometry_error_and_fit_retry_witness :
    generate_optimal_line opsFail [0, 1] [0, 0] 10 defaultVehicle defaultWeather =
      .error (.insufficientPoints 2) ∧
    generate_optimal_line opsFail [0, 1, 2, 3] [0, 0, 0, 0] 10 defaultVehicle
      defaultWeather = .error (.fitError 2) := by
  have hd2 : dedup ((([0, 1] : List ℝ)).zip ([0, 0] : List ℝ)) = [(0, 0), (1, 0)] := by
    norm_num [dedup, dedupAux, List.zip]
  constructor
  · have h := (geometry_error_and_fit_retry opsFail [0, 1] [0, 0] 10 defaultVehicle
      defaultWeather).1 (by rw [hd2]; norm_num)
    rw [hd2] at h
    simpa using h
  · have h := ((geometry_error_and_fit_retry opsFail [0, 1, 2, 3] [0, 0, 0, 0] 10
      defaultVehicle defaultWeather).2 (by rw [dedup_four]; norm_num) 1
      (by simp [opsFail])).2 2 (by norm_num [opsFail])
    exact h

/-! ## In-place mutation of caller inputs (`update_weather`, claim C9)

`OptimalLineGenerator.__init__` stores `self.weather = weather_config` — the
caller's dictionary object itself, not a copy — and `update_weather` runs
`self.weather.update(new_weather)`, a Python in-place `dict.update`.  To state
what happens to the *caller's* record we model the object heap explicitly: a
heap maps addresses to dictionaries, the generator holds the address of the
weather dict it was constructed with, and `update_weather` rewrites the dict
stored at that address.  (The second statement of `update_weather`,
`self.effective_grip = self._calculate_tire_grip()`, writes only the
generator's own attribute and is modelled by `calculate_tire_grip` above.) -/

/-- A Python dictionary with string keys and numeric values (the weather
configuration record). -/
abbrev PyDict := List (String × ℝ)

def PyDict.get? (d : PyDict) (k : String) : Option ℝ :=
  (d.find? (fun kv => kv.1 == k)).map (·.2)

/-- Python `dict.update`: keys present in `u` overwrite their values in place
(order preserved); keys new to `d` are appended. -/
def PyDict.update (d u : PyDict) : PyDict :=
  d.map (fun kv =>
    match PyDict.get? u kv.1 with
    | some v => (kv.1, v)
    | none => kv) ++
  u.filter (fun kv => (PyDict.get? d kv.1).isNone)

/-- The object heap: addresses to dictionary objects. -/
def Heap := ℕ → PyDict

/-- The alias the generator keeps to the caller-supplied weather dictionary
(`self.weather = weather_config`, no copy). -/
structure WeatherRef where
  addr : ℕ

/-- Heap effect of `update_weather(self, new_weather)`:
`self.weather.update(new_weather)` mutates the aliased dictionary in place. -/
def update_weather (h : Heap) (r : WeatherRef) (new_weather : PyDict) : Heap :=
  fun a => if a = r.addr then PyDict.update (h a) new_weather else h a

/-- A caller-supplied weather configuration object. -/
def callerWeatherDict : PyDict := [("track_temp", 85), ("rainfall", 0)]

/-- A heap with the caller's weather dict at address 0. -/
def heapZero : Heap := fun _ => callerWeatherDict

/-- Counterexample to claim C9 as stated: calling `update_weather` with a new
rainfall value changes the caller-supplied weather record in place (the
generator aliases the dict it was constructed with), so the optimal-line
component does mutate one of its inputs. -/
theorem update_weather_mutates_caller_input :
    update_weather heapZero ⟨0⟩ [("rainfall", 15)] 0 ≠ heapZero 0 := by
  intro h
  have h15 : PyDict.get? (update_weather heapZero ⟨0⟩ [("rainfall", 15)] 0) "rainfall" =
      some 15 := by
    simp [update_weather, heapZero, callerWeatherDict, PyDict.update, PyDict.get?,
      List.find?, List.filter]
  rw [h] at h15
  have h0 : PyDict.get? (heapZero 0) "rainfall" = some 0 := by
    simp [heapZero, callerWeatherDict, PyDict.get?, List.find?]
  rw [h0] at h15
  have : (0:ℝ) = 15 := by injection h15
  norm_num at this

/-- Claim C9 amended: `update_weather` mutates exactly the weather dictionary
it aliases (the caller-supplied record when one was provided); every other
heap object — in particular the vehicle configuration and the centerline —
is left unchanged. -/
theorem update_weather_frame (h : Heap) (r : WeatherRef) (new_weather : PyDict)
    (a : ℕ) (ha : a ≠ r.addr) :
    update_weather h r new_weather a = h a := by
  simp [update_weather, if_neg ha]

/-- Witness for `update_weather_frame`: address 1 is untouched by an update
through a generator aliasing address 0. -/
theorem update_weather_frame_witness :
    update_weather heapZero ⟨0⟩ [("rainfall", 15)] 1 = heapZero 1 :=
  update_weather_frame heapZero ⟨0⟩ [("rainfall", 15)] 1 (by decide)

/-! ## Track processor (`track_processor.py`): data model and projection -/

/-- `self.R = 6378137`, the Earth radius in meters. -/
def earthR : ℝ := 6378137

/-- `project_to_local_meters`: Local Flat-Earth Cartesian projection. -/
def project_to_local_meters (lat lon center_lat center_lon : ℝ) : ℝ × ℝ :=
  let dLat := (lat - center_lat) * Real.pi / 180
  let dLon := (lon - center_lon) * Real.pi / 180
  let latRad := center_lat * Real.pi / 180
  (earthR * dLon * Real.cos latRad, earthR * dLat)

/-- `get_distance_meters`: planar Euclidean distance. -/
def get_distance_meters (p₁ p₂ : ℝ × ℝ) : ℝ :=
  Real.sqrt ((p₂.1 - p₁.1) ^ 2 + (p₂.2 - p₁.2) ^ 2)

/-- One element of the OSM payload (`osm_data['elements']`). -/
inductive OsmElement
  | node (id : ℕ) (lat lon : ℝ)
  | way (id : ℕ) (nodes : List ℕ) (tags : List (String × String))

/-- A parsed way.  Tag dictionaries cannot contain duplicate keys, so the tag
list is assumed duplicate-free and looked up by first match. -/
structure Way where
  id : ℕ
  nodes : List ℕ
  tags : List (String × String)

/-- The node dictionary `nodes[el['id']] = {lat, lon}`; later assignments to
the same id overwrite earlier ones, as in a Python dict. -/
def osmNodeMap (els : List OsmElement) : ℕ → Option (ℝ × ℝ) :=
  els.foldl (fun m el =>
    match el with
    | .node i la lo => fun k => if k = i then some (la, lo) else m k
    | .way _ _ _ => m) (fun _ => none)

/-- The way list with duplicates (by id) dropped, in input order
(`seen_ways`). -/
def osmWays (els : List OsmElement) : List Way :=
  (els.foldl (fun (acc : List Way × List ℕ) el =>
    match el with
    | .node _ _ _ => acc
    | .way i ns ts => if acc.2.contains i then acc else (acc.1 ++ [⟨i, ns, ts⟩], i :: acc.2))
    ([], [])).1

def nodeLats (els : List OsmElement) : List ℝ :=
  els.filterMap (fun el => match el with | .node _ la _ => some la | _ => none)

def nodeLons (els : List OsmElement) : List ℝ :=
  els.filterMap (fun el => match el with | .node _ _ lo => some lo | _ => none)

/-- Running minimum seeded with `float('inf')`; on an empty list Python's
center computation would produce NaN, which no reachable call does. -/
def listMinD (l : List ℝ) : ℝ :=
  match l with
  | [] => 0
  | x :: xs => xs.foldl min x

def listMaxD (l : List ℝ) : ℝ :=
  match l with
  | [] => 0
  | x :: xs => xs.foldl max x

/-- The pit-lane way selection: the way whose *first* node is nearest the pit
anchor, by the flat 111000 m/degree approximation, strict `<` with first-found
winning ties. -/
def pitLaneIdOf (anchor : Option (ℝ × ℝ)) (ways : List Way)
    (nmap : ℕ → Option (ℝ × ℝ)) : Option ℕ :=
  match anchor with
  | none => none
  | some (alat, alon) =>
      (ways.foldl (fun (acc : Option (ℕ × ℝ)) w =>
        match w.nodes.head? with
        | none => acc
        | some n₀ =>
            match nmap n₀ with
            | none => acc
            | some (nlat, nlon) =>
                let d := Real.sqrt (((alat - nlat) * 111000) ^ 2 +
                  ((alon - nlon) * 111000) ^ 2)
                match acc with
                | none => some (w.id, d)
                | some (_, m) => if d < m then some (w.id, d) else acc) none).map (·.1)

/-- `tags.get(k)`. -/
def tagGet (tags : List (String × String)) (k : String) : Option String :=
  (tags.find? (fun kv => kv.1 == k)).map (·.2)

/-- Python truthiness of `tags.get(k)`: present with a non-empty value. -/
def truthyTag (tags : List (String × String)) (k : String) : Bool :=
  match tagGet tags k with
  | some v => v != ""
  | none => false

def hasSubstr (p : List Char) : List Char → Bool
  | [] => p.isEmpty
  | c :: rest => p.isPrefixOf (c :: rest) || hasSubstr p rest

/-- `'pit' in tags.get('name', '').lower()` (lower-casing applied
character-wise). -/
def nameHasPit (tags : List (String × String)) : Bool :=
  hasSubstr "pit".data (((tagGet tags "name").getD "").data.map Char.toLower)

def digitsVal (s : List Char) : ℕ :=
  s.foldl (fun a c => a * 10 + (c.toNat - '0'.toNat)) 0

/-- Python `float()` applied to a string of digits and dots (the text matched
by `([0-9.]+)`): it fails on more than one dot or on no digits at all. -/
def parseFloat (s : List Char) : Option ℝ :=
  if s.count '.' > 1 then none
  else if s.all (fun c => c == '.') then none
  else
    let intPart := s.takeWhile (fun c => c != '.')
    let fracPart := (s.dropWhile (fun c => c != '.')).drop 1
    some ((digitsVal intPart : ℝ) + (digitsVal fracPart : ℝ) / 10 ^ fracPart.length)

/-- The width override: `re.match(r'([0-9.]+)', tags['width'])` followed by
`float(...)`; any failure leaves the previous width value in place. -/
def widthFrom (tags : List (String × String)) (dflt : ℝ) : ℝ :=
  match tagGet tags "width" with
  | none => dflt
  | some ws =>
      let m := ws.toList.takeWhile (fun c => c.isDigit || c == '.')
      if m.isEmpty then dflt
      else
        match parseFloat m with
        | some v => v
        | none => dflt

/-- The `'type'` field of a processed path (`'pit'` or `'track'`). -/
inductive PathKind
  | track
  | pit
deriving DecidableEq

/-- A projected point dict `{'x': …, 'y': …}`; pit points later receive a
`'z'` key in `finalize_track`, hence the optional elevation. -/
structure PlanPt where
  x : ℝ
  y : ℝ
  z : Option ℝ

instance : Inhabited PlanPt := ⟨⟨0, 0, none⟩⟩

/-- A raw geographic node dict `{'lat': …, 'lon': …}`; `finalize_track` later
adds a `'z'` key when an elevation fetcher is available. -/
structure RawPt where
  lat : ℝ
  lon : ℝ
  z : Option ℝ

instance : Inhabited RawPt := ⟨⟨0, 0, none⟩⟩

/-- One entry of `all_paths` (the presentation-only `widthLabel` string is
omitted).  The `kind` field is the dict's `'type'` entry. -/
structure PathRec where
  id : ℕ
  points : List PlanPt
  rawPoints : List RawPt
  kind : PathKind
  widthValue : ℝ

instance : Inhabited PathRec := ⟨⟨0, [], [], .track, 12⟩⟩

structure BoundsMeters where
  minX : ℝ
  maxX : ℝ
  minY : ℝ
  maxY : ℝ
  width : ℝ
  height : ℝ

structure TrackData where
  name : String
  paths : List PathRec
  center : ℝ × ℝ
  boundsMeters : BoundsMeters

/-- The per-way body of the `process_osm_data` filtering loop: skip ways with
fewer than 2 listed or resolvable nodes, skip `highway=service` ways when a
pit way was selected and this is not it, skip barrier/wall/building ways;
otherwise project the nodes and classify the way as pit or track. -/
def processWay (pit_lane_id : Option ℕ) (nmap : ℕ → Option (ℝ × ℝ)) (center : ℝ × ℝ)
    (w : Way) : Option PathRec :=
  if w.nodes.length < 2 then none
  else
    let pts := w.nodes.filterMap nmap
    if pts.length < 2 then none
    else if (match pit_lane_id with
             | some pid => decide (w.id ≠ pid) && (tagGet w.tags "highway" == some "service")
             | none => false) then none
    else if truthyTag w.tags "barrier" || truthyTag w.tags "wall" ||
        truthyTag w.tags "building" then none
    else
      let projected := pts.map (fun p => project_to_local_meters p.1 p.2 center.1 center.2)
      let is_pit := pit_lane_id == some w.id ||
        tagGet w.tags "service" == some "pit_lane" || nameHasPit w.tags
      some
        { id := w.id
          points := projected.map (fun q => { x := q.1, y := q.2, z := none })
          rawPoints := pts.map (fun p => { lat := p.1, lon := p.2, z := none })
          kind := if is_pit then .pit else .track
          widthValue := widthFrom w.tags (if is_pit then 5 else 12) }

/-- `process_osm_data`: parse nodes and deduplicated ways, compute the
bounding-box center, select the pit way if an anchor is given, then filter,
project and classify each way. -/
def process_osm_data (osm : Option (List OsmElement)) (name : String)
    (pit_anchor : Option (ℝ × ℝ)) : Option TrackData :=
  match osm with
  | none => none
  | some els =>
      let nmap := osmNodeMap els
      let ways := osmWays els
      if ways.isEmpty then none
      else
        let center_lat := (listMinD (nodeLats els) + listMaxD (nodeLats els)) / 2
        let center_lon := (listMinD (nodeLons els) + listMaxD (nodeLons els)) / 2
        let pit_lane_id := pitLaneIdOf pit_anchor ways nmap
        let all_paths := ways.filterMap (processWay pit_lane_id nmap (center_lat, center_lon))
        let xs := (all_paths.flatMap (·.points)).map (·.x)
        let ys := (all_paths.flatMap (·.points)).map (·.y)
        some
          { name := name
            paths := all_paths
            center := (center_lat, center_lon)
            boundsMeters :=
              { minX := listMinD xs
                maxX := listMaxD xs
                minY := listMinD ys
                maxY := listMaxD ys
                width := listMaxD xs - listMinD xs
                height := listMaxD ys - listMinD ys } }

/-! ### Claim C2: `highway=service` fragments with no pit anchor -/

/-- An OSM payload holding a single two-node way tagged `highway=service`. -/
def serviceElements : List OsmElement :=
  [.node 1 0 0, .node 2 0.001 0, .way 5 [1, 2] [("highway", "service")]]

/-- Counterexample to claim C2 as stated: with no pit anchor supplied, the
`highway=service` fragment is *not* discarded — the service filter only runs
when a pit way was selected — and it is classified as a `track` path. -/
theorem service_fragment_not_discarded :
    (process_osm_data (some serviceElements) "t" none).map
        (fun td => td.paths.map (fun p => (p.id, p.kind))) =
      some [(5, PathKind.track)] := by
  simp [process_osm_data, serviceElements, osmWays, osmNodeMap, pitLaneIdOf, processWay,
    truthyTag, tagGet, nameHasPit, hasSubstr, List.foldl, List.filterMap]

/-- Claim C2 amended: a fragment tagged `highway=service` is discarded only
when a pit anchor selected some other way as the pit lane; with no pit anchor
it is kept, and (absent barrier/wall/building tags, a `service=pit_lane` tag
or "pit" in its name) it is classified as an ordinary `track` fragment. -/
theorem service_fragment_kept_as_track (els : List OsmElement) (name : String) (w : Way)
    (hw : w ∈ osmWays els)
    (hn : ¬ w.nodes.length < 2)
    (hp : ¬ (w.nodes.filterMap (osmNodeMap els)).length < 2)
    (_hserv : tagGet w.tags "highway" = some "service")
    (hbar : truthyTag w.tags "barrier" = false)
    (hwall : truthyTag w.tags "wall" = false)
    (hbld : truthyTag w.tags "building" = false)
    (hpl : tagGet w.tags "service" ≠ some "pit_lane")
    (hname : nameHasPit w.tags = false) :
    ∃ td, process_osm_data (some els) name none = some td ∧
      ∃ p ∈ td.paths, p.id = w.id ∧ p.kind = PathKind.track := by
  have hne : (osmWays els).isEmpty = false :=
    List.isEmpty_eq_false.mpr (List.ne_nil_of_mem hw)
  rw [process_osm_data]
  rw [if_neg (by simp [hne])]
  refine ⟨_, rfl, ?_⟩
  have hpw : processWay (pitLaneIdOf none (osmWays els) (osmNodeMap els)) (osmNodeMap els)
      ((listMinD (nodeLats els) + listMaxD (nodeLats els)) / 2,
        (listMinD (nodeLons els) + listMaxD (nodeLons els)) / 2) w =
      some
        { id := w.id
          points := ((w.nodes.filterMap (osmNodeMap els)).map (fun p =>
            project_to_local_meters p.1 p.2
              ((listMinD (nodeLats els) + listMaxD (nodeLats els)) / 2)
              ((listMinD (nodeLons els) + listMaxD (nodeLons els)) / 2))).map
            (fun q => { x := q.1, y := q.2, z := none })
          rawPoints := (w.nodes.filterMap (osmNodeMap els)).map (fun p =>
            { lat := p.1, lon := p.2, z := none })
          kind := PathKind.track
          widthValue := widthFrom w.tags 12 } := by
    rw [pitLaneIdOf]
    rw [processWay, if_neg hn]
    simp only []
    rw [if_neg hp, if_neg (by simp), if_neg (by simp [hbar, hwall, hbld])]
    have hip : ((none : Option ℕ) == some w.id ||
        tagGet w.tags "service" == some "pit_lane" || nameHasPit w.tags) = false := by
      simp [hname, beq_eq_false_iff_ne, hpl]
    simp only [hip, if_false, Bool.false_eq_true]
  refine ⟨_, List.mem_filterMap.mpr ⟨w, hw, hpw⟩, rfl, rfl⟩

/-- Witness for `service_fragment_kept_as_track` at the concrete
`serviceElements` payload. -/
theorem service_fragment_kept_as_track_witness :
    ∃ td, process_osm_data (some serviceElements) "t" none = some td ∧
      ∃ p ∈ td.paths, p.id = 5 ∧ p.kind = PathKind.track := by
  have h := service_fragment_kept_as_track serviceElements "t"
    ⟨5, [1, 2], [("highway", "service")]⟩
    (by simp [osmWays, serviceElements])
    (by simp)
    (by simp [osmNodeMap, serviceElements, List.filterMap])
    (by simp [tagGet])
    (by simp [truthyTag, tagGet])
    (by simp [truthyTag, tagGet])
    (by simp [truthyTag, tagGet])
    (by simp [tagGet])
    (by decide)
  exact h

/-! ## `finalize_track`

The stages of `track_processor.finalize_track` in order: choose the
start/finish anchor, pick the starting segment, greedily stitch segments,
fetch and attach elevations, resample at ≤1 m spacing, smooth elevation,
fetch pit elevations, normalize elevation (`finalizePre`), then scale to the
target length, locate and rotate to the start/finish index, and compute
sector indices (`finalizePost`).  The first geometry-only resampling pass of
the source (lines 292–326) only rebuilds `spline_points`, which the second
pass overwrites from scratch, so only the second pass is modelled.  The
`gaussian_filter1d` elevation smoothing and the elevation provider are
external calls, abstracted as function parameters.  Positions where Python
would raise (`IndexError` on an empty segment, `ZeroDivisionError` on a
zero-length track) are modelled as `none` results. -/

/-- An entry of `ordered_segments`: a fragment with its traversal direction
applied. -/
structure OrderedSeg where
  points : List PlanPt
  rawPoints : List RawPt
  width : ℝ
  id : ℕ

/-- One high-resolution spline point (second resampling pass, all keys
present). -/
structure SP where
  x : ℝ
  y : ℝ
  z : ℝ
  lat : ℝ
  lon : ℝ
  dist : ℝ
  width : ℝ

def PlanPt.pos (p : PlanPt) : ℝ × ℝ := (p.x, p.y)

def SP.pos (p : SP) : ℝ × ℝ := (p.x, p.y)

/-- One running-minimum update with strict `<` (ties keep the earlier
candidate), seeded by `float('inf')` — modelled as `none`. -/
def argminUpd (acc : Option (ℕ × Bool × ℝ)) (i : ℕ) (rev : Bool) (d : ℝ) :
    Option (ℕ × Bool × ℝ) :=
  match acc with
  | none => some (i, rev, d)
  | some (_, _, m) => if d < m then some (i, rev, d) else acc

/-- Find the starting segment: the track segment whose head or tail is
nearest the start/finish point, reversed when the tail is nearer. -/
def pickStart (tracks : List PathRec) (sfM : ℝ × ℝ) : Option (ℕ × Bool) :=
  ((tracks.enum.foldl (fun acc iseg =>
    let acc₁ := argminUpd acc iseg.1 false
      (get_distance_meters iseg.2.points.headI.pos sfM)
    argminUpd acc₁ iseg.1 true
      (get_distance_meters (iseg.2.points.getLastD default).pos sfM)) none)).map
    (fun r => (r.1, r.2.1))

/-- Find the unused segment whose head or tail is nearest the current chain
tail. -/
def findNext (tracks : List PathRec) (used : List ℕ) (tailPos : ℝ × ℝ) :
    Option (ℕ × Bool × ℝ) :=
  tracks.enum.foldl (fun acc iseg =>
    if used.contains iseg.1 then acc
    else
      let acc₁ := argminUpd acc iseg.1 false
        (get_distance_meters tailPos iseg.2.points.headI.pos)
      argminUpd acc₁ iseg.1 true
        (get_distance_meters tailPos (iseg.2.points.getLastD default).pos)) none

/-- Apply the traversal direction to a fragment. -/
def mkOSeg (s : PathRec) (rev : Bool) : OrderedSeg :=
  { points := if rev then s.points.reverse else s.points
    rawPoints := if rev then s.rawPoints.reverse else s.rawPoints
    width := s.widthValue
    id := s.id }

/-- The greedy stitching loop (`for _ in range(len(track_segs))`): append the
current segment, then continue with the nearest unused segment if its gap is
below 50 m, else stop. -/
def orderLoop (tracks : List PathRec) : ℕ → List ℕ → ℕ → Bool → List OrderedSeg
  | 0, _, _, _ => []
  | fuel + 1, used, cur, rev =>
      let seg := mkOSeg (tracks.getD cur default) rev
      let used' := cur :: used
      if seg.points.isEmpty then [seg]
      else
        match findNext tracks used' (seg.points.getLastD default).pos with
        | some (ni, nrev, gap) =>
            if gap < 50 then seg :: orderLoop tracks fuel used' ni nrev else [seg]
        | none => [seg]

/-- The elevation provider (`fetcher.fetch_elevation`): a batch of (lat, lon)
queries producing a lookup keyed by the rounded coordinate pair. -/
def Fetch := List (ℝ × ℝ) → (ℝ × ℝ) → Option ℝ

/-- Python `round(x, 6)`.  (Python rounds half to even while Mathlib's `round`
rounds half up; they differ only at exact half-microdegree ties, which no
claim exercises.) -/
def round6 (x : ℝ) : ℝ := (round (x * 1000000) : ℤ) / 1000000

def roundKey (lat lon : ℝ) : ℝ × ℝ := (round6 lat, round6 lon)

def chunksOfAux (n : ℕ) : ℕ → List α → List (List α)
  | 0, _ => []
  | _, [] => []
  | fuel + 1, l => l.take n :: chunksOfAux n fuel (l.drop n)

/-- Split a list into consecutive chunks of `n` (the batching of elevation
requests, `batch_size = 200`). -/
def chunksOf (n : ℕ) (l : List α) : List (List α) := chunksOfAux n l.length l

/-- `unique_nodes`: first occurrence per rounded coordinate key, insertion
order, original coordinates kept. -/
def uniqueNodes (segs : List OrderedSeg) : List RawPt :=
  (segs.flatMap (·.rawPoints)).foldl (fun acc n =>
    if acc.any (fun m => decide (roundKey m.lat m.lon = roundKey n.lat n.lon)) then acc
    else acc ++ [n]) []

/-- `node_elevations`: batch-fetch in chunks of 200 and merge the resulting
dictionaries (later batches overwrite on key collision, as `dict.update`
does). -/
def nodeElevations (f : Fetch) (ns : List RawPt) : (ℝ × ℝ) → Option ℝ :=
  (chunksOf 200 (ns.map (fun n => (n.lat, n.lon)))).foldl
    (fun m batch => fun k => (f batch k).orElse (fun _ => m k)) (fun _ => none)

/-- Write the fetched elevations into the raw nodes
(`node['z'] = node_elevations.get(node_key, 0)`). -/
def applyElev (fetcher : Option Fetch) (segs : List OrderedSeg) : List OrderedSeg :=
  match fetcher with
  | none => segs
  | some f =>
      if segs.isEmpty then segs
      else
        let elev := nodeElevations f (uniqueNodes segs)
        segs.map (fun s =>
          { s with rawPoints := s.rawPoints.map (fun n =>
              { n with z := some ((elev (roundKey n.lat n.lon)).getD 0) }) })

/-- A resampled point from an original vertex. -/
def mkSP (p : PlanPt) (rawP : RawPt) (dist width : ℝ) : SP :=
  { x := p.x, y := p.y, z := rawP.z.getD 0, lat := rawP.lat, lon := rawP.lon,
    dist := dist, width := width }

/-- One vertex of the second resampling pass: insert `int(d)` linearly
interpolated points when the gap to the previous spline point exceeds 1 m
(interpolating position, lat/lon and elevation), always advance the running
total by the gap, then append the vertex itself.  The interpolation anchor
`last_raw` is the previous raw vertex of the same segment, or the current one
at a segment start. -/
def resampleStep (width : ℝ) (st : (List SP × ℝ) × Option RawPt) (pr : PlanPt × RawPt) :
    (List SP × ℝ) × Option RawPt :=
  let p := pr.1
  let rawP := pr.2
  let pts := st.1.1
  let total := st.1.2
  match pts.getLast? with
  | none => ((pts ++ [mkSP p rawP total width], total), some rawP)
  | some lastP =>
      let lastRaw := st.2.getD rawP
      let d := get_distance_meters lastP.pos p.pos
      let interps : List SP :=
        if d > 1.0 then
          (List.range ⌊d⌋₊).map (fun s₀ =>
            let t : ℝ := (s₀ + 1 : ℕ) / d
            { x := lastP.x + (p.x - lastP.x) * t
              y := lastP.y + (p.y - lastP.y) * t
              z := lastRaw.z.getD 0 + (rawP.z.getD 0 - lastRaw.z.getD 0) * t
              lat := lastRaw.lat + (rawP.lat - lastRaw.lat) * t
              lon := lastRaw.lon + (rawP.lon - lastRaw.lon) * t
              dist := total + (s₀ + 1 : ℕ)
              width := width })
        else []
      ((pts ++ interps ++ [mkSP p rawP (total + d) width], total + d), some rawP)

def resampleSeg (st : List SP × ℝ) (seg : OrderedSeg) : List SP × ℝ :=
  ((seg.points.zip seg.rawPoints).foldl (resampleStep seg.width) (st, none)).1

/-- The second resampling pass over the ordered segments.  (The source indexes
`rawPoints[i]` in lock-step with `points[i]`; the zip models the equal-length
assumption.) -/
def resample (segs : List OrderedSeg) : List SP × ℝ :=
  segs.foldl resampleSeg ([], 0)

/-- Gaussian smoothing of the elevation profile, applied only above 10 points;
`smooth` abstracts `gaussian_filter1d(…, sigma=5.0, mode='wrap')`, which
preserves length (the `getD` fallback keeps the embedding total). -/
def smoothStep (smooth : List ℝ → List ℝ) (pts : List SP) : List SP :=
  if 10 < pts.length then
    let zs := smooth (pts.map (·.z))
    pts.enum.map (fun ip => { ip.2 with z := zs.getD ip.1 ip.2.z })
  else pts

/-- Fetch elevation for the pit-lane segments and write a `z` key onto each
pit point with a matching raw point. -/
def pitElevStep (fetcher : Option Fetch) (pits : List PathRec) : List PathRec :=
  match fetcher with
  | none => pits
  | some f =>
      if pits.isEmpty then pits
      else
        pits.map (fun seg =>
          let lookup := f (seg.rawPoints.map (fun rp => (rp.lat, rp.lon)))
          { seg with points := seg.points.enum.map (fun ip =>
              if ip.1 < seg.rawPoints.length then
                let rp := seg.rawPoints.getD ip.1 default
                { ip.2 with z := some ((lookup (roundKey rp.lat rp.lon)).getD 0) }
              else ip.2) })

/-- Normalize elevations: subtract the global minimum over the spline points
and every pit point that has an elevation.  (`z_values` is nonempty whenever
`spline_points` is, so the inner `if z_values:` guard collapses.) -/
def normalizeStep (pts : List SP) (pits : List PathRec) : List SP × List PathRec :=
  if pts.isEmpty then (pts, pits)
  else
    let zvals := pts.map (·.z) ++ (pits.flatMap (·.points)).filterMap (·.z)
    let minZ := zvals.min?.getD 0
    (pts.map (fun p => { p with z := p.z - minZ }),
     pits.map (fun s =>
       { s with points := s.points.map (fun pt =>
           match pt.z with
           | some z => { pt with z := some (z - minZ) }
           | none => pt) }))

/-- Scale x, y and cumulative distance to the requested circuit length
(`target = circuit_miles × 1609.34`); elevation is never scaled.  A
zero-length track would raise `ZeroDivisionError` in the source. -/
def scaleStep (miles : ℝ) (pts : List SP) (total : ℝ) : Option (List SP × ℝ × ℝ) :=
  if 0 < miles then
    if total = 0 then none
    else
      let scale := miles * 1609.34 / total
      some (pts.map (fun p =>
        { p with
          x := p.x * scale
          y := p.y * scale
          dist := p.dist * scale }), total * scale, scale)
  else some (pts, total, 1)

/-- The start/finish index: the nearest spline point among the first
`min(2000, len)` to the scaled start/finish projection. -/
def findSfIndex (pts : List SP) (sf : ℝ × ℝ) : ℕ :=
  ((((pts.take 2000).enum.foldl (fun (acc : Option (ℕ × ℝ)) ip =>
    let d := get_distance_meters ip.2.pos sf
    match acc with
    | none => some (ip.1, d)
    | some (_, m) => if d < m then some (ip.1, d) else acc) none)).map (·.1)).getD 0

/-- Rotate the sequence so index `i` becomes index 0 and recompute cumulative
distance from the rotated order. -/
def rotateAt (pts : List SP) (i : ℕ) : List SP × ℝ :=
  match pts.drop i ++ pts.take i with
  | [] => ([], 0)
  | p₀ :: rest =>
      let st := rest.foldl (fun (acc : List SP × SP × ℝ) q =>
        let tot := acc.2.2 + get_distance_meters acc.2.1.pos q.pos
        (acc.1 ++ [{ q with dist := tot }], q, tot))
        ([{ p₀ with dist := 0 }], { p₀ with dist := 0 }, 0)
      (st.1, st.2.2)

/-- The sector-boundary search: the first index whose cumulative distance
reaches the threshold, `-1` when none does. -/
def firstGe (threshold : ℝ) : List SP → ℤ
  | [] => -1
  | p :: rest =>
      if threshold ≤ p.dist then 0
      else if firstGe threshold rest = -1 then -1 else firstGe threshold rest + 1

/-- A scaled pit point of the output (`scaled_pit_points`, elevation defaulted
to 0 when absent). -/
structure PitOut where
  x : ℝ
  y : ℝ
  z : ℝ

/-- The numeric content of `finalize_track`'s result dict (the SVG path
strings, colors and `nodeSample` are presentation only and omitted; the
output dict hardcodes `sfIndex: 0`, so the internal rotation index is kept
here as `sfIndex` for analysis). -/
structure FinalizeResult where
  splinePoints : List SP
  totalDistance : ℝ
  scalingFactor : ℝ
  sfIndex : ℕ
  s1m : ℝ
  s2m : ℝ
  s1Idx : ℤ
  s2Idx : ℤ
  s3Idx : ℤ
  pitPaths : List (List PitOut)
  sfMarker : Option SP

/-- The start/finish anchor: the explicit coordinates when both are given,
else the first raw point of the first path (`sf_lat is None or sf_lon is
None` triggers the default). -/
def sfAnchor (td : TrackData) (sf_lat? sf_lon? : Option ℝ) : Option (ℝ × ℝ) :=
  match sf_lat?, sf_lon? with
  | some la, some lo => some (la, lo)
  | _, _ =>
      match td.paths.head? with
      | some p₀ =>
          match p₀.rawPoints.head? with
          | some r => some (r.lat, r.lon)
          | none => none
      | none => none

/-- Stages of `finalize_track` up to elevation normalization: anchor
selection, track/pit split, start pick, greedy stitching, elevation fetch,
resampling, smoothing, pit elevation and normalization. -/
def finalizePre (smooth : List ℝ → List ℝ) (fetcher : Option Fetch) (td : TrackData)
    (sf_lat? sf_lon? : Option ℝ) :
    Option (List SP × List PathRec × ℝ × (ℝ × ℝ)) :=
  if td.paths.isEmpty then none
  else
    match sfAnchor td sf_lat? sf_lon? with
    | none => none
    | some sfLL =>
        let sfM := project_to_local_meters sfLL.1 sfLL.2 td.center.1 td.center.2
        let tracks := td.paths.filter (fun p => decide (p.kind = PathKind.track))
        let pits := td.paths.filter (fun p => decide (p.kind = PathKind.pit))
        if tracks.isEmpty then none
        else if tracks.any (fun s => s.points.isEmpty) then none
        else
          match pickStart tracks sfM with
          | none => none
          | some ir =>
              let ordered := applyElev fetcher (orderLoop tracks tracks.length [] ir.1 ir.2)
              let res := resample ordered
              let norm := normalizeStep (smoothStep smooth res.1) (pitElevStep fetcher pits)
              some (norm.1, norm.2, res.2, sfM)

/-- Stages of `finalize_track` after normalization: scaling, start/finish
search, rotation with cumulative-distance recomputation, sector indices and
result assembly. -/
def finalizePost (s1in? s2in? _s3in? : Option ℝ) (miles : ℝ)
    (mid : List SP × List PathRec × ℝ × (ℝ × ℝ)) : Option FinalizeResult :=
  match scaleStep miles mid.1 mid.2.2.1 with
  | none => none
  | some str =>
      let spts := str.1
      let total := str.2.1
      let scale := str.2.2
      let s1m := (s1in?.getD 0) * 0.0254
      let s2m := (s2in?.getD 0) * 0.0254
      let sfScaled := (mid.2.2.2.1 * scale, mid.2.2.2.2 * scale)
      let sfIdx := findSfIndex spts sfScaled
      let rotated := if 0 < sfIdx then rotateAt spts sfIdx else (spts, total)
      some
        { splinePoints := rotated.1
          totalDistance := rotated.2
          scalingFactor := scale
          sfIndex := sfIdx
          s1m := s1m
          s2m := s2m
          s1Idx := if 0 < s1m then firstGe s1m rotated.1 else -1
          s2Idx := if 0 < s2m then firstGe (s1m + s2m) rotated.1 else -1
          s3Idx := (rotated.1.length : ℤ) - 1
          pitPaths := mid.2.1.map (fun seg => seg.points.map (fun p =>
            { x := p.x * scale, y := p.y * scale, z := p.z.getD 0 }))
          sfMarker := rotated.1.head? }

/-- `finalize_track` (a `None` `track_data` argument is covered by the caller
passing nothing to model; the empty-paths guard is the first stage). -/
def finalize_track (smooth : List ℝ → List ℝ) (fetcher : Option Fetch) (td : TrackData)
    (sf_lat? sf_lon? : Option ℝ) (s1in? s2in? s3in? : Option ℝ) (miles : ℝ) :
    Option FinalizeResult :=
  (finalizePre smooth fetcher td sf_lat? sf_lon?).bind
    (finalizePost s1in? s2in? s3in? miles)

/-! ### Sector-index search lemmas -/

lemma firstGe_ge_neg_one (th : ℝ) (l : List SP) : -1 ≤ firstGe th l := by
  induction l with
  | nil => simp [firstGe]
  | cons p rest ih =>
      rw [firstGe]
      by_cases hth : th ≤ p.dist
      · rw [if_pos hth]; norm_num
      · rw [if_neg hth]
        by_cases hr : firstGe th rest = -1
        · rw [if_pos hr]
        · rw [if_neg hr]; omega

lemma firstGe_eq_neg_one_iff (th : ℝ) (l : List SP) :
    firstGe th l = -1 ↔ ∀ p ∈ l, p.dist < th := by
  induction l with
  | nil => simp [firstGe]
  | cons p rest ih =>
      rw [firstGe]
      by_cases hth : th ≤ p.dist
      · rw [if_pos hth]
        constructor
        · intro h; omega
        · intro h
          exact ((not_le.mpr (h p (List.mem_cons_self _ _))) hth).elim
      · rw [if_neg hth]
        by_cases hr : firstGe th rest = -1
        · rw [if_pos hr]
          simp only [true_iff]
          intro q hq
          rcases List.mem_cons.mp hq with rfl | hq'
          · exact not_le.mp hth
          · exact (ih.mp hr) q hq'
        · rw [if_neg hr]
          have hge := firstGe_ge_neg_one th rest
          constructor
          · intro h; omega
          · intro h
            exact absurd (ih.mpr (fun q hq => h q (List.mem_cons_of_mem _ hq))) hr

lemma firstGe_bounds (th : ℝ) (l : List SP) (h : firstGe th l ≠ -1) :
    0 ≤ firstGe th l ∧ firstGe th l < (l.length : ℤ) := by
  induction l with
  | nil => simp [firstGe] at h
  | cons p rest ih =>
      rw [firstGe] at h ⊢
      by_cases hth : th ≤ p.dist
      · rw [if_pos hth]
        simp only [List.length_cons]
        constructor
        · norm_num
        · push_cast
          omega
      · rw [if_neg hth] at h ⊢
        by_cases hr : firstGe th rest = -1
        · rw [if_pos hr] at h
          exact absurd rfl h
        · rw [if_neg hr] at h ⊢
          obtain ⟨h1, h2⟩ := ih hr
          simp only [List.length_cons]
          push_cast
          omega

lemma firstGe_mono (th th' : ℝ) (l : List SP) (hth : th ≤ th')
    (h : firstGe th' l ≠ -1) : firstGe th l ≤ firstGe th' l := by
  induction l with
  | nil => simp [firstGe]
  | cons p rest ih =>
      rw [firstGe] at h
      conv_lhs => rw [firstGe]
      conv_rhs => rw [firstGe]
      by_cases hth' : th' ≤ p.dist
      · rw [if_pos hth'] at h ⊢
        rw [if_pos (le_trans hth hth')]
      · rw [if_neg hth'] at h ⊢
        by_cases hr' : firstGe th' rest = -1
        · rw [if_pos hr'] at h
          exact absurd rfl h
        · rw [if_neg hr'] at h ⊢
          have hge' := firstGe_ge_neg_one th' rest
          by_cases hth0 : th ≤ p.dist
          · rw [if_pos hth0]
            omega
          · rw [if_neg hth0]
            by_cases hr : firstGe th rest = -1
            · rw [if_pos hr]
              omega
            · rw [if_neg hr]
              have := ih hr'
              omega

/-- Inversion of a successful `finalizePost`: every field of the result,
expressed through the scaled point list. -/
lemma finalizePost_fields {s1? s2? s3? : Option ℝ} {miles : ℝ}
    {mid : List SP × List PathRec × ℝ × (ℝ × ℝ)} {r : FinalizeResult}
    (h : finalizePost s1? s2? s3? miles mid = some r) :
    ∃ spts total scale,
      scaleStep miles mid.1 mid.2.2.1 = some (spts, total, scale) ∧
      r.s1m = (s1?.getD 0) * 0.0254 ∧
      r.s2m = (s2?.getD 0) * 0.0254 ∧
      r.scalingFactor = scale ∧
      r.sfIndex = findSfIndex spts (mid.2.2.2.1 * scale, mid.2.2.2.2 * scale) ∧
      r.splinePoints = (if 0 < r.sfIndex then rotateAt spts r.sfIndex else (spts, total)).1 ∧
      r.totalDistance = (if 0 < r.sfIndex then rotateAt spts r.sfIndex else (spts, total)).2 ∧
      r.s1Idx = (if 0 < r.s1m then firstGe r.s1m r.splinePoints else -1) ∧
      r.s2Idx = (if 0 < r.s2m then firstGe (r.s1m + r.s2m) r.splinePoints else -1) ∧
      r.pitPaths = mid.2.1.map (fun seg => seg.points.map (fun p =>
        { x := p.x * scale, y := p.y * scale, z := p.z.getD 0 })) := by
  rw [finalizePost] at h
  split at h
  · exact absurd h (by simp)
  · rename_i str heq
    injection h with h'
    subst h'
    exact ⟨str.1, str.2.1, str.2.2, by rw [heq], rfl, rfl, rfl, rfl, rfl, rfl, rfl, rfl, rfl⟩

/-- Claim C7 amended: if both sector lengths are positive and some spline
point's cumulative distance reaches their *sum*, then
`0 ≤ s1EndIndex ≤ s2EndIndex < N`; and an index is `-1` exactly when its
sector length is non-positive or no point's cumulative distance reaches its
cumulative target.  (The original claim's hypothesis — each length separately
below the total — does not suffice: when `s1m + s2m` exceeds the total,
`s2EndIndex` is `-1`.) -/
theorem sector_indices_monotone (smooth : List ℝ → List ℝ) (fetcher : Option Fetch)
    (td : TrackData) (sf_lat? sf_lon? s1in? s2in? s3in? : Option ℝ) (miles : ℝ)
    (r : FinalizeResult)
    (hres : finalize_track smooth fetcher td sf_lat? sf_lon? s1in? s2in? s3in? miles =
      some r) :
    (0 < r.s1m → 0 < r.s2m → (∃ p ∈ r.splinePoints, r.s1m + r.s2m ≤ p.dist) →
      0 ≤ r.s1Idx ∧ r.s1Idx ≤ r.s2Idx ∧ r.s2Idx < (r.splinePoints.length : ℤ)) ∧
    (r.s1Idx = -1 ↔ r.s1m ≤ 0 ∨ ∀ p ∈ r.splinePoints, p.dist < r.s1m) ∧
    (r.s2Idx = -1 ↔ r.s2m ≤ 0 ∨ ∀ p ∈ r.splinePoints, p.dist < r.s1m + r.s2m) := by
  rw [finalize_track] at hres
  obtain ⟨mid, _, hpost⟩ := Option.bind_eq_some.mp hres
  obtain ⟨spts, total, scale, _, _, _, _, _, _, _, h1idx, h2idx, _⟩ :=
    finalizePost_fields hpost
  refine ⟨?_, ?_, ?_⟩
  · intro hm1 hm2 hreach
    have hsum_pos : ¬ ∀ p ∈ r.splinePoints, p.dist < r.s1m + r.s2m := by
      obtain ⟨p, hp, hdp⟩ := hreach
      exact fun hall => absurd (hall p hp) (not_lt.mpr hdp)
    have h2ne : firstGe (r.s1m + r.s2m) r.splinePoints ≠ -1 := by
      rw [Ne, firstGe_eq_neg_one_iff]
      exact hsum_pos
    have h1ne : firstGe r.s1m r.splinePoints ≠ -1 := by
      rw [Ne, firstGe_eq_neg_one_iff]
      intro hall
      obtain ⟨p, hp, hdp⟩ := hreach
      have := hall p hp
      linarith
    rw [h1idx, h2idx, if_pos hm1, if_pos hm2]
    obtain ⟨hge1, _⟩ := firstGe_bounds _ _ h1ne
    obtain ⟨_, hlt2⟩ := firstGe_bounds _ _ h2ne
    exact ⟨hge1, firstGe_mono _ _ _ (by linarith) h2ne, hlt2⟩
  · rw [h1idx]
    split
    · rename_i hm
      rw [firstGe_eq_neg_one_iff]
      constructor
      · exact Or.inr
      · rintro (h | h)
        · linarith
        · exact h
    · rename_i hm
      simp only [true_iff]
      exact Or.inl (not_lt.mp hm)
  · rw [h2idx]
    split
    · rename_i hm
      rw [firstGe_eq_neg_one_iff]
      constructor
      · exact Or.inr
      · rintro (h | h)
        · linarith
        · exact h
    · rename_i hm
      simp only [true_iff]
      exact Or.inl (not_lt.mp hm)

/-- Claim C5 amended: the scaling pass makes the total cumulative distance
equal the target `circuit_miles × 1609.34` exactly; the reported total still
equals the target whenever the start/finish index is 0 (no rotation).  (When
the sequence is rotated to a nonzero index, the total is *recomputed* as the
length of the rotated open polyline, which need not be within any tolerance
of the target.) -/
theorem scaling_exact_when_unrotated (smooth : List ℝ → List ℝ) (fetcher : Option Fetch)
    (td : TrackData) (sf_lat? sf_lon? s1in? s2in? s3in? : Option ℝ) (miles : ℝ)
    (r : FinalizeResult)
    (hres : finalize_track smooth fetcher td sf_lat? sf_lon? s1in? s2in? s3in? miles =
      some r)
    (hm : 0 < miles) (hsf : r.sfIndex = 0) :
    r.totalDistance = miles * 1609.34 := by
  rw [finalize_track] at hres
  obtain ⟨mid, _, hpost⟩ := Option.bind_eq_some.mp hres
  obtain ⟨spts, total, scale, hscale, _, _, _, _, _, htot, _, _, _⟩ :=
    finalizePost_fields hpost
  rw [htot, hsf, if_neg (lt_irrefl 0)]
  rw [scaleStep, if_pos hm] at hscale
  split at hscale
  · exact absurd hscale (by simp)
  · rename_i h0
    injection hscale with h'
    have htotal : total = mid.2.2.1 * (miles * 1609.34 / mid.2.2.1) := by
      have := congrArg (fun q : List SP × ℝ × ℝ => q.2.1) h'
      simpa using this.symm
    rw [htotal]
    field_simp

/-! ### Elevation normalization (claim C6) -/

/-- All elevation values of a finalized track: the centerline spline points'
elevations together with every pit-lane output point's elevation. -/
def allElevations (r : FinalizeResult) : List ℝ :=
  r.splinePoints.map (·.z) ++ r.pitPaths.flatMap (fun l => l.map (·.z))

lemma min_z_facts (l : List ℝ) (h : l ≠ []) :
    ∃ m, l.min? = some m ∧ m ∈ l ∧ ∀ b ∈ l, m ≤ b := by
  cases hm : l.min? with
  | none => exact absurd (List.min?_eq_none_iff.mp hm) h
  | some m =>
      refine ⟨m, rfl, List.min?_mem (fun a b => min_choice a b) hm, ?_⟩
      intro b hb
      exact (List.le_min?_iff (fun a b c => le_min_iff) hm).mp le_rfl b hb

/-- After `normalizeStep` on a nonempty spline, every elevation (spline and
pit, with absent pit elevations read as 0) is non-negative and the value 0 is
attained. -/
lemma normalizeStep_facts (pts : List SP) (pits : List PathRec) (hne : pts ≠ []) :
    (∀ z ∈ ((normalizeStep pts pits).1.map (·.z)) ++
        (((normalizeStep pts pits).2.flatMap (·.points)).map (fun p => p.z.getD 0)), 0 ≤ z) ∧
    (0:ℝ) ∈ ((normalizeStep pts pits).1.map (·.z)) ++
        (((normalizeStep pts pits).2.flatMap (·.points)).map (fun p => p.z.getD 0)) := by
  have hie : pts.isEmpty = false := by simpa using hne
  simp only [normalizeStep, hie, Bool.false_eq_true, if_false]
  have hzne : pts.map (·.z) ++ (pits.flatMap (·.points)).filterMap (·.z) ≠ [] := by
    intro hc
    obtain ⟨h1, -⟩ := List.append_eq_nil.mp hc
    exact hne (List.map_eq_nil_iff.mp h1)
  obtain ⟨m, hm, hmem, hle⟩ := min_z_facts _ hzne
  simp only [hm, Option.getD_some]
  constructor
  · intro z hz
    rcases List.mem_append.mp hz with hz | hz
    · simp only [List.map_map, List.mem_map, Function.comp] at hz
      obtain ⟨p, hp, rfl⟩ := hz
      have : p.z ∈ pts.map (·.z) ++ (pits.flatMap (·.points)).filterMap (·.z) :=
        List.mem_append.mpr (Or.inl (List.mem_map.mpr ⟨p, hp, rfl⟩))
      have := hle _ this
      show (0:ℝ) ≤ p.z - m
      linarith
    · simp only [List.mem_map, List.mem_flatMap] at hz
      obtain ⟨q, ⟨s', ⟨s, hs, rfl⟩, hq⟩, rfl⟩ := hz
      simp only [List.mem_map] at hq
      obtain ⟨pt, hpt, rfl⟩ := hq
      cases hptz : pt.z with
      | none => simp [hptz]
      | some z₀ =>
          have hz₀ : z₀ ∈ pts.map (·.z) ++ (pits.flatMap (·.points)).filterMap (·.z) := by
            refine List.mem_append.mpr (Or.inr (List.mem_filterMap.mpr ⟨pt, ?_, hptz⟩))
            exact List.mem_flatMap.mpr ⟨s, hs, hpt⟩
          have := hle _ hz₀
          show (0:ℝ) ≤ z₀ - m
          linarith
  · rcases List.mem_append.mp hmem with hm' | hm'
    · obtain ⟨p, hp, hpz⟩ := List.mem_map.mp hm'
      refine List.mem_append.mpr (Or.inl ?_)
      simp only [List.map_map, List.mem_map, Function.comp]
      exact ⟨p, hp, by show p.z - m = 0; rw [hpz]; ring⟩
    · obtain ⟨pt, hpt, hptz⟩ := List.mem_filterMap.mp hm'
      obtain ⟨s, hs, hpts'⟩ := List.mem_flatMap.mp hpt
      refine List.mem_append.mpr (Or.inr ?_)
      simp only [List.mem_map, List.mem_flatMap]
      refine ⟨_, ⟨_, ⟨s, hs, rfl⟩, List.mem_map.mpr ⟨pt, hpts', rfl⟩⟩, ?_⟩
      show ((match pt.z with
        | some z => { pt with z := some (z - m) }
        | none => pt : PlanPt)).z.getD 0 = 0
      rw [hptz]
      show m - m = 0
      ring

/-- Scaling leaves the elevation column unchanged. -/
lemma scaleStep_z {miles : ℝ} {pts : List SP} {total : ℝ} {spts : List SP} {t s : ℝ}
    (h : scaleStep miles pts total = some (spts, t, s)) :
    spts.map (·.z) = pts.map (·.z) := by
  rw [scaleStep] at h
  split at h
  · split at h
    · exact absurd h (by simp)
    · injection h with h'
      have h1 : spts = pts.map (fun p =>
          { p with
            x := p.x * (miles * 1609.34 / total)
            y := p.y * (miles * 1609.34 / total)
            dist := p.dist * (miles * 1609.34 / total) }) := by
        have := congrArg Prod.fst h'
        simpa using this.symm
      rw [h1, List.map_map]
      rfl
  · injection h with h'
    have h1 : spts = pts := by
      have := congrArg Prod.fst h'
      simpa using this.symm
    rw [h1]

lemma rotateFold_z (rest : List SP) :
    ∀ (acc : List SP) (prev : SP) (tot : ℝ),
      ((rest.foldl (fun (acc : List SP × SP × ℝ) q =>
        let tt := acc.2.2 + get_distance_meters acc.2.1.pos q.pos
        (acc.1 ++ [{ q with dist := tt }], q, tt)) (acc, prev, tot)).1).map (·.z) =
      acc.map (·.z) ++ rest.map (·.z) := by
  induction rest with
  | nil => intro acc prev tot; simp
  | cons q rest ih =>
      intro acc prev tot
      simp only [List.foldl_cons]
      rw [ih]
      simp

/-- Rotation permutes the points and rewrites distances only; the elevation
column is the rotated original. -/
lemma rotateAt_z (pts : List SP) (i : ℕ) :
    ((rotateAt pts i).1).map (·.z) = (pts.drop i ++ pts.take i).map (·.z) := by
  rw [rotateAt]
  split
  · rename_i heq
    simp [heq]
  · rename_i p₀ rest heq
    simp only []
    rw [rotateFold_z, heq]
    simp

/-- Inversion of `finalizePre`: the spline points and pit segments it returns
are a `normalizeStep` output. -/
lemma finalizePre_inv {smooth : List ℝ → List ℝ} {fetcher : Option Fetch} {td : TrackData}
    {a b : Option ℝ} {mid : List SP × List PathRec × ℝ × (ℝ × ℝ)}
    (h : finalizePre smooth fetcher td a b = some mid) :
    ∃ pts pits, mid.1 = (normalizeStep pts pits).1 ∧ mid.2.1 = (normalizeStep pts pits).2 := by
  rw [finalizePre] at h
  split at h
  · exact absurd h (by simp)
  · split at h
    · exact absurd h (by simp)
    · dsimp only at h
      split at h
      · exact absurd h (by simp)
      · split at h
        · exact absurd h (by simp)
        · split at h
          · exact absurd h (by simp)
          · injection h with h'
            subst h'
            exact ⟨_, _, rfl, rfl⟩


/-- Claim C6: after `finalize_track`'s elevation normalization, the minimum
elevation across all centerline spline points and all pit-lane points is
exactly 0 (the value 0 is attained) and no point has negative elevation. -/
theorem elevation_normalized_min_zero (smooth : List ℝ → List ℝ) (fetcher : Option Fetch)
    (td : TrackData) (sf_lat? sf_lon? s1in? s2in? s3in? : Option ℝ) (miles : ℝ)
    (r : FinalizeResult)
    (hres : finalize_track smooth fetcher td sf_lat? sf_lon? s1in? s2in? s3in? miles =
      some r)
    (hne : r.splinePoints ≠ []) :
    (∀ z ∈ allElevations r, 0 ≤ z) ∧ (0:ℝ) ∈ allElevations r := by
  rw [finalize_track] at hres
  obtain ⟨mid, hpre, hpost⟩ := Option.bind_eq_some.mp hres
  obtain ⟨pts, pits, hm1, hm2⟩ := finalizePre_inv hpre
  obtain ⟨spts, total, scale, hscale, -, -, -, -, hspl, -, -, -, hpits⟩ :=
    finalizePost_fields hpost
  have hsz : spts.map (·.z) = mid.1.map (·.z) := scaleStep_z hscale
  have hz1 : (r.splinePoints.map (·.z)).Perm (mid.1.map (·.z)) := by
    rw [hspl]
    split
    · rw [rotateAt_z]
      have hperm : (spts.drop r.sfIndex ++ spts.take r.sfIndex).Perm spts :=
        List.perm_append_comm.trans (List.Perm.of_eq (List.take_append_drop _ _))
      exact (hperm.map (·.z)).trans (List.Perm.of_eq hsz)
    · exact List.Perm.of_eq hsz
  have hz2 : (r.pitPaths.flatMap (fun l => l.map (·.z))) =
      ((mid.2.1.flatMap (·.points)).map (fun p => p.z.getD 0)) := by
    rw [hpits]
    simp only [List.flatMap_map, List.map_flatMap, List.map_map]
    rfl
  have hpts_ne : pts ≠ [] := by
    intro hc
    subst hc
    have : mid.1 = [] := by
      rw [hm1, normalizeStep]
      simp
    rw [this] at hz1
    simp only [List.map_nil] at hz1
    exact hne (List.map_eq_nil_iff.mp hz1.eq_nil)
  obtain ⟨hall, hzero⟩ := normalizeStep_facts pts pits hpts_ne
  rw [← hm1, ← hm2] at hall hzero
  constructor
  · intro z hz
    rcases List.mem_append.mp hz with hz | hz
    · exact hall z (List.mem_append.mpr (Or.inl (hz1.mem_iff.mp hz)))
    · rw [hz2] at hz
      exact hall z (List.mem_append.mpr (Or.inr hz))
  · rcases List.mem_append.mp hzero with hz | hz
    · exact List.mem_append.mpr (Or.inl (hz1.mem_iff.mpr hz))
    · exact List.mem_append.mpr (Or.inr (hz2 ▸ hz))

/-! ### Concrete `finalize_track` runs -/

lemma dist_xaxis (a b : ℝ) : get_distance_meters (a, 0) (b, 0) = |b - a| := by
  rw [get_distance_meters]
  norm_num [Real.sqrt_sq_eq_abs]

lemma project_zero : project_to_local_meters 0 0 0 0 = (0, 0) := by
  simp [project_to_local_meters]

lemma dist_xaxis_zero (a : ℝ) : get_distance_meters (a, 0) (0 : ℝ × ℝ) = |a| := by
  have h : get_distance_meters (a, 0) (0 : ℝ × ℝ) = get_distance_meters (a, 0) (0, 0) := rfl
  rw [h, dist_xaxis, zero_sub, abs_neg]

/-- A single straight track fragment with three vertices 0.9 m apart on the
x-axis. -/
def trackSegA : PathRec :=
  { id := 7
    points := [⟨1, 0, none⟩, ⟨1.9, 0, none⟩, ⟨2.8, 0, none⟩]
    rawPoints := [⟨0, 0, none⟩, ⟨0, 0, none⟩, ⟨0, 0, none⟩]
    kind := .track
    widthValue := 12 }

def tdA : TrackData :=
  { name := "A"
    paths := [trackSegA]
    center := (0, 0)
    boundsMeters := ⟨0, 0, 0, 0, 0, 0⟩ }

/-- The resampled spline of `tdA` (no interpolation: gaps are 0.9 m). -/
def ptsA : List SP :=
  [⟨1, 0, 0, 0, 0, 0, 12⟩, ⟨1.9, 0, 0, 0, 0, 0.9, 12⟩, ⟨2.8, 0, 0, 0, 0, 1.8, 12⟩]

lemma preA : finalizePre id none tdA (some 0) (some 0) = some (ptsA, [], 1.8, (0, 0)) := by
  have ha1 : |(14:ℝ)/5| = 14/5 := abs_of_nonneg (by norm_num)
  have ha2 : |(9:ℝ)/10| = 9/10 := abs_of_nonneg (by norm_num)
  have hpk : decide (PathKind.track = PathKind.pit) = false := by decide
  have hpk' : ¬ PathKind.track = PathKind.pit := by decide
  norm_num [ha1, ha2, hpk, hpk', finalizePre, sfAnchor, tdA, trackSegA, project_zero, pickStart, argminUpd,
    findNext, orderLoop, mkOSeg, applyElev, resample, resampleSeg, resampleStep, mkSP,
    smoothStep, pitElevStep, normalizeStep, ptsA, dist_xaxis, dist_xaxis_zero, List.min?,
    SP.pos, PlanPt.pos]

def scaleA : ℝ := 1609.34 / 1.8

def sptsA : List SP :=
  [⟨scaleA, 0, 0, 0, 0, 0, 12⟩, ⟨1.9 * scaleA, 0, 0, 0, 0, 0.9 * scaleA, 12⟩,
    ⟨2.8 * scaleA, 0, 0, 0, 0, 1.8 * scaleA, 12⟩]

lemma scaleStepA : scaleStep 1 ptsA 1.8 = some (sptsA, 1609.34, scaleA) := by
  rw [scaleStep, if_pos (by norm_num), if_neg (by norm_num)]
  norm_num [ptsA, sptsA, scaleA]

lemma sfIdxA : findSfIndex sptsA (0 * scaleA, 0 * scaleA) = 0 := by
  have h0 : ((0:ℝ) * scaleA, (0:ℝ) * scaleA) = ((0:ℝ), (0:ℝ)) := by norm_num
  rw [h0, findSfIndex, List.take_of_length_le (by norm_num [sptsA])]
  have hb1 : |(80467:ℝ)/90| = 80467/90 := abs_of_nonneg (by norm_num)
  have hb2 : |(1528873:ℝ)/900| = 1528873/900 := abs_of_nonneg (by norm_num)
  have hb3 : |(563269:ℝ)/225| = 563269/225 := abs_of_nonneg (by norm_num)
  norm_num [sptsA, scaleA, dist_xaxis, dist_xaxis_zero, List.enum, List.enumFrom, SP.pos,
    hb1, hb2, hb3]

/-- The finalized `tdA` with no sectors requested and a 1-mile target. -/
def resA : FinalizeResult :=
  { splinePoints := sptsA
    totalDistance := 1609.34
    scalingFactor := scaleA
    sfIndex := 0
    s1m := 0
    s2m := 0
    s1Idx := -1
    s2Idx := -1
    s3Idx := 2
    pitPaths := []
    sfMarker := some ⟨scaleA, 0, 0, 0, 0, 0, 12⟩ }

lemma finalA : finalize_track id none tdA (some 0) (some 0) none none none 1 = some resA := by
  rw [finalize_track, preA]
  show finalizePost none none none 1 (ptsA, [], 1.8, (0, 0)) = some resA
  rw [finalizePost]
  dsimp only
  rw [scaleStepA]
  dsimp only
  rw [sfIdxA]
  have hlen : sptsA.length = 3 := rfl
  have hhead : sptsA.head? = some ⟨scaleA, 0, 0, 0, 0, 0, 12⟩ := rfl
  norm_num [resA, hlen, hhead]

lemma firstGe900 : firstGe 900 sptsA = 2 := by
  norm_num [firstGe, sptsA, scaleA]

lemma firstGe1800 : firstGe 1800 sptsA = -1 := by
  norm_num [firstGe, sptsA, scaleA]

lemma firstGe500 : firstGe 500 sptsA = 1 := by
  norm_num [firstGe, sptsA, scaleA]

lemma firstGe1000 : firstGe 1000 sptsA = 2 := by
  norm_num [firstGe, sptsA, scaleA]

/-- `tdA` finalized with sector lengths of 900 m each (4500000/127 inches):
both positive and below the 1609.34 m total, but their sum exceeds it. -/
def resACx : FinalizeResult :=
  { resA with s1m := 900, s2m := 900, s1Idx := 2, s2Idx := -1 }

lemma finalACx :
    finalize_track id none tdA (some 0) (some 0) (some (4500000 / 127))
      (some (4500000 / 127)) none 1 = some resACx := by
  rw [finalize_track, preA]
  show finalizePost (some (4500000 / 127)) (some (4500000 / 127)) none 1
    (ptsA, [], 1.8, (0, 0)) = some resACx
  rw [finalizePost]
  dsimp only
  rw [scaleStepA]
  dsimp only
  rw [sfIdxA]
  have hm : ((some ((4500000:ℝ) / 127)).getD 0) * 0.0254 = 900 := by norm_num
  rw [hm, show (900:ℝ) + 900 = 1800 from by norm_num]
  have hlen : sptsA.length = 3 := rfl
  have hhead : sptsA.head? = some ⟨scaleA, 0, 0, 0, 0, 0, 12⟩ := rfl
  norm_num [firstGe900, firstGe1800, resACx, resA, hlen, hhead]

/-- `tdA` finalized with sector lengths of 500 m each: the sectors fit. -/
def resAW : FinalizeResult :=
  { resA with s1m := 500, s2m := 500, s1Idx := 1, s2Idx := 2 }

lemma finalAW :
    finalize_track id none tdA (some 0) (some 0) (some (2500000 / 127))
      (some (2500000 / 127)) none 1 = some resAW := by
  rw [finalize_track, preA]
  show finalizePost (some (2500000 / 127)) (some (2500000 / 127)) none 1
    (ptsA, [], 1.8, (0, 0)) = some resAW
  rw [finalizePost]
  dsimp only
  rw [scaleStepA]
  dsimp only
  rw [sfIdxA]
  have hm : ((some ((2500000:ℝ) / 127)).getD 0) * 0.0254 = 500 := by norm_num
  rw [hm, show (500:ℝ) + 500 = 1000 from by norm_num]
  have hlen : sptsA.length = 3 := rfl
  have hhead : sptsA.head? = some ⟨scaleA, 0, 0, 0, 0, 0, 12⟩ := rfl
  norm_num [firstGe500, firstGe1000, resAW, resA, hlen, hhead]

/-- Counterexample to claim C7 as stated: on `tdA` with two 900 m sectors,
both sector lengths are positive and less than the 1609.34 m total, yet
`s2EndIndex = -1` (their sum 1800 m exceeds the total), violating
`0 ≤ s1EndIndex ≤ s2EndIndex < N`. -/
theorem sector_monotonicity_cx :
    (finalize_track id none tdA (some 0) (some 0) (some (4500000 / 127))
        (some (4500000 / 127)) none 1).map
      (fun r => (r.s1m, r.s2m, r.totalDistance, r.s1Idx, r.s2Idx, r.splinePoints.length)) =
      some (900, 900, 1609.34, 2, -1, 3) ∧
    (0:ℝ) < 900 ∧ (900:ℝ) < 1609.34 ∧ ¬ (0 ≤ (-1 : ℤ)) := by
  refine ⟨?_, by norm_num, by norm_num, by norm_num⟩
  rw [finalACx]
  norm_num [resACx, resA, sptsA]

/-- Witness for `sector_indices_monotone` on the 500 m-sector run. -/
theorem sector_indices_monotone_witness :
    0 ≤ resAW.s1Idx ∧ resAW.s1Idx ≤ resAW.s2Idx ∧
      resAW.s2Idx < (resAW.splinePoints.length : ℤ) :=
  (sector_indices_monotone id none tdA (some 0) (some 0) (some (2500000 / 127))
      (some (2500000 / 127)) none 1 resAW finalAW).1
    (by norm_num [resAW, resA]) (by norm_num [resAW, resA])
    ⟨⟨2.8 * scaleA, 0, 0, 0, 0, 1.8 * scaleA, 12⟩, by simp [resAW, resA, sptsA],
      by norm_num [resAW, resA, sptsA, scaleA]⟩

/-- Witness for `scaling_exact_when_unrotated` on the unrotated `tdA` run. -/
theorem scaling_exact_when_unrotated_witness : resA.totalDistance = 1 * 1609.34 :=
  scaling_exact_when_unrotated id none tdA (some 0) (some 0) none none none 1 resA finalA
    (by norm_num) rfl

/-- Witness for `elevation_normalized_min_zero` on the `tdA` run. -/
theorem elevation_normalized_min_zero_witness : (0:ℝ) ∈ allElevations resA :=
  (elevation_normalized_min_zero id none tdA (some 0) (some 0) none none none 1 resA finalA
    (by simp [resA, sptsA])).2

/-! ### A run whose start/finish point rotates the sequence (claim C5) -/

/-- A single straight fragment whose middle vertex is nearest the start/finish
point, forcing a rotation to index 1. -/
def trackSegB : PathRec :=
  { id := 9
    points := [⟨-0.5, 0, none⟩, ⟨0.2, 0, none⟩, ⟨1.1, 0, none⟩]
    rawPoints := [⟨0, 0, none⟩, ⟨0, 0, none⟩, ⟨0, 0, none⟩]
    kind := .track
    widthValue := 12 }

def tdB : TrackData :=
  { name := "B"
    paths := [trackSegB]
    center := (0, 0)
    boundsMeters := ⟨0, 0, 0, 0, 0, 0⟩ }

/-- The y-offset of the start/finish projection for `tdB` (latitude 1°,
longitude 0°, center at the origin). -/
def sfYB : ℝ := earthR * (Real.pi / 180)

lemma projectB : project_to_local_meters 1 0 0 0 = (0, sfYB) := by
  simp [project_to_local_meters, sfYB]

lemma dist_to_y (x c : ℝ) : get_distance_meters (x, 0) (0, c) = Real.sqrt (x ^ 2 + c ^ 2) := by
  rw [get_distance_meters]
  congr 1
  ring

/-- Distances to a point on the y-axis compare like the squared x-offsets. -/
lemma distY_lt_iff (x₁ x₂ c : ℝ) :
    get_distance_meters (x₁, 0) (0, c) < get_distance_meters (x₂, 0) (0, c) ↔
      x₁ ^ 2 < x₂ ^ 2 := by
  rw [dist_to_y, dist_to_y]
  constructor
  · intro h
    have h₁ := Real.sq_sqrt (show (0:ℝ) ≤ x₁ ^ 2 + c ^ 2 by positivity)
    have h₂ := Real.sq_sqrt (show (0:ℝ) ≤ x₂ ^ 2 + c ^ 2 by positivity)
    have h₃ := Real.sqrt_nonneg (x₁ ^ 2 + c ^ 2)
    nlinarith
  · intro h
    exact Real.sqrt_lt_sqrt (by positivity) (by linarith)

/-- The resampled spline of `tdB`. -/
def ptsB : List SP :=
  [⟨-0.5, 0, 0, 0, 0, 0, 12⟩, ⟨0.2, 0, 0, 0, 0, 0.7, 12⟩, ⟨1.1, 0, 0, 0, 0, 1.6, 12⟩]

lemma preB : finalizePre id none tdB (some 1) (some 0) = some (ptsB, [], 1.6, (0, sfYB)) := by
  have ha1 : |(7:ℝ)/10| = 7/10 := abs_of_nonneg (by norm_num)
  have ha2 : |(9:ℝ)/10| = 9/10 := abs_of_nonneg (by norm_num)
  have hpk : decide (PathKind.track = PathKind.pit) = false := by decide
  have hpk' : ¬ PathKind.track = PathKind.pit := by decide
  norm_num [ha1, ha2, hpk, hpk', finalizePre, sfAnchor, tdB, trackSegB, projectB, pickStart,
    argminUpd, findNext, orderLoop, mkOSeg, applyElev, resample, resampleSeg, resampleStep,
    mkSP, smoothStep, pitElevStep, normalizeStep, ptsB, dist_xaxis, dist_xaxis_zero,
    distY_lt_iff, List.min?, SP.pos, PlanPt.pos]

def scaleB : ℝ := 1609.34 / 1.6

def sptsB : List SP :=
  [⟨-0.5 * scaleB, 0, 0, 0, 0, 0, 12⟩, ⟨0.2 * scaleB, 0, 0, 0, 0, 0.7 * scaleB, 12⟩,
    ⟨1.1 * scaleB, 0, 0, 0, 0, 1.6 * scaleB, 12⟩]

lemma scaleStepB : scaleStep 1 ptsB 1.6 = some (sptsB, 1609.34, scaleB) := by
  rw [scaleStep, if_pos (by norm_num), if_neg (by norm_num)]
  norm_num [ptsB, sptsB, scaleB]

lemma sfIdxB : findSfIndex sptsB (0 * scaleB, sfYB * scaleB) = 1 := by
  have h0 : ((0:ℝ) * scaleB, sfYB * scaleB) = ((0:ℝ), sfYB * scaleB) := by norm_num
  rw [h0, findSfIndex, List.take_of_length_le (by norm_num [sptsB])]
  norm_num [sptsB, scaleB, distY_lt_iff, List.enum, List.enumFrom, SP.pos]

/-- The rotated spline of `tdB` (start/finish index 1) with recomputed
cumulative distances. -/
def rotB : List SP :=
  [⟨0.2 * scaleB, 0, 0, 0, 0, 0, 12⟩, ⟨1.1 * scaleB, 0, 0, 0, 0, 0.9 * scaleB, 12⟩,
    ⟨-0.5 * scaleB, 0, 0, 0, 0, 2.5 * scaleB, 12⟩]

lemma rotateAtB : rotateAt sptsB 1 = (rotB, 2.5 * scaleB) := by
  have hb1 : |(724203:ℝ)/800| = 724203/800 := abs_of_nonneg (by norm_num)
  have hb2 : |(80467:ℝ)/50| = 80467/50 := abs_of_nonneg (by norm_num)
  rw [rotateAt]
  norm_num [sptsB, rotB, scaleB, dist_xaxis, SP.pos, hb1, hb2]

def resB : FinalizeResult :=
  { splinePoints := rotB
    totalDistance := 2.5 * scaleB
    scalingFactor := scaleB
    sfIndex := 1
    s1m := 0
    s2m := 0
    s1Idx := -1
    s2Idx := -1
    s3Idx := 2
    pitPaths := []
    sfMarker := some ⟨0.2 * scaleB, 0, 0, 0, 0, 0, 12⟩ }

lemma finalB : finalize_track id none tdB (some 1) (some 0) none none none 1 = some resB := by
  rw [finalize_track, preB]
  show finalizePost none none none 1 (ptsB, [], 1.6, (0, sfYB)) = some resB
  rw [finalizePost]
  dsimp only
  rw [scaleStepB]
  dsimp only
  rw [sfIdxB, if_pos (by norm_num : (0:ℕ) < 1), rotateAtB]
  have hlen : rotB.length = 3 := rfl
  have hhead : rotB.head? = some ⟨0.2 * scaleB, 0, 0, 0, 0, 0, 12⟩ := rfl
  norm_num [resB, hlen, hhead]

/-- Counterexample to claim C5 as stated: `tdB` with a 1-mile target is
rotated to start/finish index 1, the cumulative distance is recomputed from
the rotated order, and the reported total 2514.59375 m misses the target
1609.34 m by 56 % — far beyond the 1e-3 relative tolerance. -/
theorem scaling_exactness_cx :
    (finalize_track id none tdB (some 1) (some 0) none none none 1).map
      FinalizeResult.totalDistance = some 2514.59375 ∧
    ¬ (|(2514.59375:ℝ) - 1 * 1609.34| ≤ 1e-3 * (1 * 1609.34)) := by
  constructor
  · rw [finalB]
    norm_num [resB, scaleB]
  · have hb1 : |(724203:ℝ)/800| = 724203/800 := abs_of_nonneg (by norm_num)
    norm_num [hb1]

end RaceTrack
